import Mathlib

/-
Shallow embedding of the claim-allocation and wallet-ledger core of the
YTbullk Django application (core/models.py, core/views.py,
core/views_wallet.py, core/views_cron.py, core/views_admin_milestones.py).

Monetary `Decimal` amounts are modelled as integers (exact fixed-point
arithmetic), timestamps as natural numbers.  Database tables are modelled
as association lists from primary key to row; `alookup`/`aupdate` stand
for a `get(pk=...)` and a row update by primary key.  Fresh primary keys
are drawn from a single sequence counter `DB.seq`.
-/

deriving instance DecidableEq for Except

namespace YTB

set_option linter.unusedVariables false

-- ## Association-list primitives (keyed table rows)

def alookup {α : Type} : List (Nat × α) → Nat → Option α
  | [], _ => none
  | p :: rest, k => if p.1 = k then some p.2 else alookup rest k

def aupdate {α : Type} (l : List (Nat × α)) (k : Nat) (f : α → α) : List (Nat × α) :=
  l.map fun p => if p.1 = k then (p.1, f p.2) else p

/-- `pat in s` substring test (Python `in` on strings). -/
def strContains (s pat : String) : Bool :=
  decide (List.IsInfix pat.toList s.toList)

/-- Python `str.strip()` (structurally recursive so proofs can evaluate it). -/
def strStrip (s : String) : String :=
  String.mk ((s.data.dropWhile Char.isWhitespace).reverse.dropWhile Char.isWhitespace).reverse

/-- Python `str.lower()`. -/
def strLower (s : String) : String :=
  String.mk (s.data.map Char.toLower)

/-- Python slice `s[:n]`. -/
def strTake (s : String) (n : Nat) : String :=
  String.mk (s.data.take n)

/-- SQL `field > now` on a nullable timestamp column (NULL never matches). -/
def optGt (e : Option Nat) (now : Nat) : Bool :=
  match e with
  | some t => decide (now < t)
  | none => false

/-- SQL `field <= now` on a nullable timestamp column (NULL never matches). -/
def optLe (e : Option Nat) (now : Nat) : Bool :=
  match e with
  | some t => decide (t ≤ now)
  | none => false

-- ## Data model (core/models.py)

inductive ClaimStatus
  | claimed | submitted | expired
  deriving DecidableEq

inductive ReviewStatus
  | pending_review | approved | rejected
  deriving DecidableEq

inductive WRStatus
  | pending | approved | rejected
  deriving DecidableEq

inductive MPStatus
  | pending_review | approved | rejected
  deriving DecidableEq

inductive TxnKind
  | task_credit | milestone_bonus | withdrawal_hold | withdrawal | admin_adjustment | reversal
  deriving DecidableEq

/-- core/models.py FileItem. -/
structure FileItem where
  batch : Nat
  title : String := ""
  description : String := ""
  tags : String := ""
  reuse_limit : Int := 2
  used_count : Int := 0
  deriving DecidableEq

/-- core/models.py Work. -/
structure Work where
  file_batch : Nat
  price_per_item : Int := 0
  deadline_minutes : Nat := 60
  total_slots : Int := 0
  remaining_slots : Int := 0
  deriving DecidableEq

/-- core/models.py WorkClaim. -/
structure WorkClaim where
  user : Nat
  work : Nat
  file_item : Option Nat := none
  title : String := ""
  description : String := ""
  tags : String := ""
  payout_amount : Int := 0
  status : ClaimStatus := .claimed
  review_status : ReviewStatus := .pending_review
  assigned_at : Nat := 0
  expires_at : Option Nat := none
  submitted_at : Option Nat := none
  youtube_url : String := ""
  youtube_video_id : String := ""
  yt_views : Nat := 0
  yt_likes : Nat := 0
  yt_last_checked_at : Option Nat := none
  next_check_at : Option Nat := none
  deriving DecidableEq

/-- core/models.py ClaimMetricsLog. -/
structure ClaimMetricsLog where
  claim : Nat
  snapshot_at : Nat
  views : Nat := 0
  likes : Nat := 0
  deriving DecidableEq

/-- core/models.py WalletTransaction (a Wallet is keyed by its user id;
its row is just the cached balance). -/
structure WalletTransaction where
  wallet : Nat
  kind : TxnKind
  amount : Int
  ref_claim : Option Nat := none
  note : String := ""
  deriving DecidableEq

/-- core/models.py WithdrawalRequest. -/
structure WithdrawalRequest where
  wallet : Nat
  amount : Int
  upi_vpa : String := ""
  status : WRStatus := .pending
  processed_at : Option Nat := none
  admin_note : String := ""
  deriving DecidableEq

/-- core/models.py MilestoneRule. -/
structure MilestoneRule where
  active : Bool := true
  threshold_views : Nat
  payout_amount : Int := 0
  deriving DecidableEq

/-- core/models.py MilestonePayout. -/
structure MilestonePayout where
  claim : Nat
  rule : Nat
  views_snapshot : Nat := 0
  likes_snapshot : Nat := 0
  amount : Int := 0
  status : MPStatus := .pending_review
  decided_at : Option Nat := none
  credited_txn : Option Nat := none
  deriving DecidableEq

/-- The relational store.  `wallets` maps user id to the cached balance;
`min_withdraw` is SiteSettings.min_withdraw_amount (`none` = no settings row). -/
structure DB where
  items : List (Nat × FileItem) := []
  works : List (Nat × Work) := []
  claims : List (Nat × WorkClaim) := []
  wallets : List (Nat × Int) := []
  txns : List (Nat × WalletTransaction) := []
  withdrawals : List (Nat × WithdrawalRequest) := []
  rules : List (Nat × MilestoneRule) := []
  payouts : List (Nat × MilestonePayout) := []
  logs : List ClaimMetricsLog := []
  min_withdraw : Option Int := none
  seq : Nat := 0
  deriving DecidableEq

-- ## Ledger primitives (core/models.py)

/-- Signed sum of all transactions belonging to wallet `u`. -/
def txnSum (txns : List (Nat × WalletTransaction)) (u : Nat) : Int :=
  ((txns.filter fun p => p.2.wallet == u).map fun p => p.2.amount).sum

/-- Wallet.get_or_create_for_user. -/
def getOrCreateWallet (db : DB) (user : Nat) : DB :=
  match alookup db.wallets user with
  | some _ => db
  | none => { db with wallets := db.wallets ++ [(user, 0)] }

/-- WalletTransaction.apply_transaction: append a signed transaction and
update the cached balance in the same transaction.  Returns the new
transaction's id.  Every caller ensures the wallet row exists first
(get_or_create or a foreign key). -/
def apply_transaction (db : DB) (user : Nat) (kind : TxnKind) (amount : Int)
    (refClaim : Option Nat) (note : String) : DB × Nat :=
  ({ db with
      txns := db.txns ++ [(db.seq, { wallet := user, kind := kind, amount := amount, ref_claim := refClaim, note := note })],
      wallets := aupdate db.wallets user (· + amount),
      seq := db.seq + 1 },
   db.seq)

-- ## Slot allocation (core/views.py WorkClaimCreateView.post)

inductive AllocErr
  | activeTask | alreadyParticipated | workNotFound | soldOut | outOfInventory
  deriving DecidableEq

def userHasActiveClaim (db : DB) (user now : Nat) : Bool :=
  db.claims.any fun p =>
    p.2.user == user && p.2.status == ClaimStatus.claimed && optGt p.2.expires_at now

def userHasClaimOnWork (db : DB) (user workId : Nat) : Bool :=
  db.claims.any fun p => p.2.user == user && p.2.work == workId

/-- `w.file_batch.items.filter(used_count__lt=F("reuse_limit"))`. -/
def eligibleItems (db : DB) (batch : Nat) : List (Nat × FileItem) :=
  db.items.filter fun p => p.2.batch == batch && decide (p.2.used_count < p.2.reuse_limit)

def newClaim (user workId chosenId : Nat) (fi : FileItem) (price : Int) (now expires : Nat) : WorkClaim :=
  { user := user, work := workId, file_item := some chosenId,
    title := fi.title, description := fi.description, tags := fi.tags,
    payout_amount := price, status := .claimed, review_status := .pending_review,
    assigned_at := now, expires_at := some expires }

/-- `random.shuffle(candidate_ids)` followed by taking the head is modelled
by indexing the candidate list with an arbitrary seed `k`. -/
def allocChoose (k : Nat) (c0 : Nat × FileItem) (rest : List (Nat × FileItem)) : Nat × FileItem :=
  (c0 :: rest).getD (k % (c0 :: rest).length) c0

/-- expires_at = now + timedelta(minutes=w.deadline_minutes or 60). -/
def allocExpiry (now : Nat) (w : Work) : Nat :=
  now + (if w.deadline_minutes = 0 then 60 else w.deadline_minutes)

def allocSuccess (db : DB) (workId user now k : Nat) (w : Work) (c0 : Nat × FileItem)
    (rest : List (Nat × FileItem)) : DB :=
  { db with
    items := aupdate db.items (allocChoose k c0 rest).1 fun it => { it with used_count := it.used_count + 1 },
    works := aupdate db.works workId fun ww => { ww with remaining_slots := ww.remaining_slots - 1 },
    claims := db.claims ++
      [(db.seq, newClaim user workId (allocChoose k c0 rest).1 (allocChoose k c0 rest).2
          w.price_per_item now (allocExpiry now w))],
    seq := db.seq + 1 }

/-- WorkClaimCreateView.post. -/
def allocate (db : DB) (workId user now k : Nat) : DB × Except AllocErr Nat :=
  if userHasActiveClaim db user now then (db, .error .activeTask)
  else if userHasClaimOnWork db user workId then (db, .error .alreadyParticipated)
  else
    match alookup db.works workId with
    | none => (db, .error .workNotFound)
    | some w =>
      if w.remaining_slots ≤ 0 then (db, .error .soldOut)
      else
        match eligibleItems db w.file_batch with
        | [] => (db, .error .outOfInventory)
        | c0 :: rest => (allocSuccess db workId user now k w c0 rest, .ok db.seq)

-- ## Submission (core/views.py WorkClaimSubmitView.post)

/-- A URL together with the hostname `urllib.parse.urlparse` extracts from it. -/
structure Url where
  raw : String
  hostname : Option String
  deriving DecidableEq

def isYoutubeUrl (u : Url) : Bool :=
  let host := strLower (u.hostname.getD "")
  strContains host "youtube.com" || host == "youtu.be"

inductive SubmitErr
  | urlRequired | notYouTube | claimNotFound | badStatus
  deriving DecidableEq

/-- c.youtube_url = url; c.submitted_at = now; c.status = "submitted". -/
def submitUpdate (url : String) (now : Nat) (c : WorkClaim) : WorkClaim :=
  { c with youtube_url := url, submitted_at := some now, status := .submitted }

def submit (db : DB) (claimId user : Nat) (u : Url) (now : Nat) : DB × Except SubmitErr Unit :=
  if strStrip u.raw = "" then (db, .error .urlRequired)
  else if ¬ isYoutubeUrl u then (db, .error .notYouTube)
  else
    match alookup db.claims claimId with
    | none => (db, .error .claimNotFound)
    | some c =>
      if c.user ≠ user then (db, .error .claimNotFound)
      else if c.status ≠ ClaimStatus.claimed ∧ c.status ≠ ClaimStatus.submitted then
        (db, .error .badStatus)
      else
        ({ db with claims := aupdate db.claims claimId (submitUpdate (strStrip u.raw) now) },
         .ok ())

-- ## Expiry sweep (core/views.py WorkSweepExpireView.post)

def expiringClaims (db : DB) (workId now : Nat) : List (Nat × WorkClaim) :=
  db.claims.filter fun p =>
    p.2.work == workId && p.2.status == ClaimStatus.claimed && optLe p.2.expires_at now

def expireOne (workId : Nat) (db : DB) (p : Nat × WorkClaim) : DB :=
  { db with
    items := match p.2.file_item with
      | some fid => aupdate db.items fid fun it => { it with used_count := it.used_count - 1 }
      | none => db.items,
    works := aupdate db.works workId fun w => { w with remaining_slots := w.remaining_slots + 1 },
    claims := aupdate db.claims p.1 fun c => { c with status := .expired } }

def sweepExpired (db : DB) (workId now : Nat) : DB × Option Nat :=
  match alookup db.works workId with
  | none => (db, none)
  | some _ =>
    ((expiringClaims db workId now).foldl (expireOne workId) db,
     some (expiringClaims db workId now).length)

-- ## Claim review (core/views.py AdminApproveClaimView / AdminRejectClaimView)

inductive ReviewErr
  | claimMissing
  deriving DecidableEq

def hasTaskCredit (db : DB) (user claimId : Nat) : Bool :=
  db.txns.any fun p =>
    p.2.wallet == user && p.2.kind == TxnKind.task_credit && p.2.ref_claim == some claimId

/-- `claim.review_status = r; claim.save(update_fields=["review_status"])`. -/
def setReview (r : ReviewStatus) (db : DB) (cid : Nat) : DB :=
  { db with claims := aupdate db.claims cid fun c => { c with review_status := r } }

/-- The crediting step of claim approval: skip if a task_credit already
references the claim, otherwise append one.

amount = claim.payout_amount or Decimal("0"): the Python `or` maps a zero
Decimal to 0, so it is the identity on the amount. -/
def creditClaimTxn (db : DB) (u cid : Nat) (amount : Int) : DB :=
  if hasTaskCredit db u cid then db
  else (apply_transaction db u .task_credit amount (some cid) ("Approved claim #" ++ toString cid)).1

def approveClaim (db : DB) (claimId : Nat) : DB × Except ReviewErr Unit :=
  match alookup db.claims claimId with
  | none => (db, .error .claimMissing)
  | some claim =>
    if claim.review_status = ReviewStatus.approved then (db, .ok ())
    else
      (creditClaimTxn (getOrCreateWallet (setReview .approved db claimId) claim.user)
        claim.user claimId claim.payout_amount,
       .ok ())

def rejectClaim (db : DB) (claimId : Nat) : DB × Except ReviewErr Unit :=
  match alookup db.claims claimId with
  | none => (db, .error .claimMissing)
  | some claim =>
    if claim.review_status = ReviewStatus.rejected then (db, .ok ())
    else (setReview .rejected db claimId, .ok ())

-- ## Withdrawal flow (core/views_wallet.py)

inductive WithdrawErr
  | invalidInput | belowMinimum | insufficientBalance
  deriving DecidableEq

/-- Create the pending WithdrawalRequest row. -/
def newWithdrawal (db : DB) (user : Nat) (amount : Int) (vpa : String) : DB :=
  { db with
    withdrawals := db.withdrawals ++
      [(db.seq, { wallet := user, amount := amount, upi_vpa := vpa, status := .pending })],
    seq := db.seq + 1 }

def requestWithdrawal (db : DB) (user : Nat) (amount : Int) (upi_vpa : String) : DB × Except WithdrawErr Nat :=
  if amount ≤ 0 ∨ strStrip upi_vpa = "" then (db, .error .invalidInput)
  else if amount < db.min_withdraw.getD 0 then (getOrCreateWallet db user, .error .belowMinimum)
  else if (alookup (getOrCreateWallet db user).wallets user).getD 0 < amount then
    (getOrCreateWallet db user, .error .insufficientBalance)
  else
    ((apply_transaction (newWithdrawal (getOrCreateWallet db user) user amount (strStrip upi_vpa))
        user .withdrawal_hold (-amount) none
        ("Hold for WR#" ++ toString (getOrCreateWallet db user).seq)).1,
     .ok (getOrCreateWallet db user).seq)

inductive WithdrawAdminErr
  | requestMissing | alreadyProcessed
  deriving DecidableEq

def wrApprove (now : Nat) (w : WithdrawalRequest) : WithdrawalRequest :=
  { w with status := .approved, processed_at := some now }

def wrReject (now : Nat) (anote : String) (w : WithdrawalRequest) : WithdrawalRequest :=
  { w with status := .rejected, processed_at := some now, admin_note := anote }

def setWithdrawal (db : DB) (pk : Nat) (f : WithdrawalRequest → WithdrawalRequest) : DB :=
  { db with withdrawals := aupdate db.withdrawals pk f }

def approveWithdrawal (db : DB) (pk now : Nat) : DB × Except WithdrawAdminErr Unit :=
  match alookup db.withdrawals pk with
  | none => (db, .error .requestMissing)
  | some wr =>
    if wr.status ≠ WRStatus.pending then (db, .error .alreadyProcessed)
    else
      ((apply_transaction (setWithdrawal db pk (wrApprove now))
          wr.wallet .withdrawal 0 none ("Approved WR#" ++ toString pk)).1,
       .ok ())

def rejectWithdrawal (db : DB) (pk : Nat) (note : String) (now : Nat) : DB × Except WithdrawAdminErr Unit :=
  match alookup db.withdrawals pk with
  | none => (db, .error .requestMissing)
  | some wr =>
    if wr.status ≠ WRStatus.pending then (db, .error .alreadyProcessed)
    else
      ((apply_transaction (setWithdrawal db pk (wrReject now (strTake note 255)))
          wr.wallet .reversal wr.amount none ("Reversal of hold WR#" ++ toString pk)).1,
       .ok ())

-- ## Milestone review (core/views_admin_milestones.py)

inductive MilestoneErr
  | payoutMissing
  deriving DecidableEq

def milestoneNote (db : DB) (pk : Nat) (mp : MilestonePayout) : String :=
  "MilestonePayout#" ++ toString pk ++ " - " ++
    toString (((alookup db.rules mp.rule).map fun r => r.threshold_views).getD 0) ++ " views"

/-- `wallet.transactions.filter(kind="milestone_bonus", note__icontains=...)`. -/
def findBonusTxn (db : DB) (user pk : Nat) : Option (Nat × WalletTransaction) :=
  db.txns.find? fun p =>
    p.2.wallet == user && p.2.kind == TxnKind.milestone_bonus &&
      strContains p.2.note ("MilestonePayout#" ++ toString pk)

/-- Mark the MilestonePayout approved and attach the crediting transaction. -/
def milestoneSetApproved (pk now tid : Nat) (db : DB) : DB :=
  { db with payouts := aupdate db.payouts pk fun m =>
      { m with status := .approved, decided_at := some now, credited_txn := some tid } }

def approveMilestone (db : DB) (pk now : Nat) : DB × Except MilestoneErr Unit :=
  match alookup db.payouts pk with
  | none => (db, .error .payoutMissing)
  | some mp =>
    if mp.status = MPStatus.approved ∧ mp.credited_txn.isSome then (db, .ok ())
    else
      match alookup db.claims mp.claim with
      | none => (db, .error .payoutMissing)  -- broken claim reference: transaction aborts, no writes
      | some c =>
        match findBonusTxn (getOrCreateWallet db c.user) c.user pk with
        | some t => (milestoneSetApproved pk now t.1 (getOrCreateWallet db c.user), .ok ())
        | none =>
          (milestoneSetApproved pk now
            (apply_transaction (getOrCreateWallet db c.user) c.user .milestone_bonus mp.amount
              (some mp.claim) (milestoneNote (getOrCreateWallet db c.user) pk mp)).2
            (apply_transaction (getOrCreateWallet db c.user) c.user .milestone_bonus mp.amount
              (some mp.claim) (milestoneNote (getOrCreateWallet db c.user) pk mp)).1,
           .ok ())

def rejectMilestone (db : DB) (pk now : Nat) : DB × Except MilestoneErr Unit :=
  match alookup db.payouts pk with
  | none => (db, .error .payoutMissing)
  | some mp =>
    if mp.status = MPStatus.rejected then (db, .ok ())
    else
      ({ db with payouts := aupdate db.payouts pk fun m =>
          { m with status := .rejected, decided_at := some now } },
       .ok ())

-- ## Metrics refresh and milestone detection (core/views_cron.py CronMetricsRefreshView.get)

def refreshEligible (c : WorkClaim) (now : Nat) : Bool :=
  c.youtube_video_id != "" &&
    (c.status == ClaimStatus.submitted ||
     c.review_status == ReviewStatus.approved || c.review_status == ReviewStatus.pending_review) &&
    (optLe c.next_check_at now || c.next_check_at.isNone)

def milestoneRulesHit (db : DB) (views : Nat) : List (Nat × MilestoneRule) :=
  db.rules.filter fun r => r.2.active && decide (r.2.threshold_views ≤ views)

def newPayout (cid views likes : Nat) (rp : Nat × MilestoneRule) : MilestonePayout :=
  { claim := cid, rule := rp.1, views_snapshot := views, likes_snapshot := likes,
    amount := rp.2.payout_amount, status := .pending_review }

/-- Lock the (claim, rule) pair, create the MilestonePayout only if none exists. -/
def createPayoutIfAbsent (cid views likes : Nat) (db : DB) (rp : Nat × MilestoneRule) : DB :=
  if db.payouts.any fun p => p.2.claim == cid && p.2.rule == rp.1 then db
  else
    { db with
      payouts := db.payouts ++ [(db.seq, newPayout cid views likes rp)],
      seq := db.seq + 1 }

/-- Update the claim's live metrics and schedule the next check. -/
def refreshClaimRow (now cooldown views likes : Nat) (c : WorkClaim) : WorkClaim :=
  { c with yt_views := views, yt_likes := likes,
           yt_last_checked_at := some now, next_check_at := some (now + cooldown) }

/-- Save the refreshed claim and append the ClaimMetricsLog snapshot. -/
def refreshUpdateAndLog (db : DB) (cid now cooldown views likes : Nat) : DB :=
  { db with
    claims := aupdate db.claims cid (refreshClaimRow now cooldown views likes),
    logs := db.logs ++ [{ claim := cid, snapshot_at := now, views := views, likes := likes }] }

def refreshOne (cooldown : Nat) (stats : List (String × Nat × Nat)) (now : Nat) (db : DB) (cid : Nat) : DB :=
  match alookup db.claims cid with
  | none => db
  | some claim =>
    if claim.youtube_video_id = "" then db
    else
      match stats.find? fun s => s.1 == claim.youtube_video_id with
      | none => db
      | some s =>
        if claim.review_status = ReviewStatus.approved ∧
            (claim.youtube_video_id ≠ "" ∨ claim.youtube_url ≠ "") then
          (milestoneRulesHit (refreshUpdateAndLog db cid now cooldown s.2.1 s.2.2) s.2.1).foldl
            (createPayoutIfAbsent cid s.2.1 s.2.2)
            (refreshUpdateAndLog db cid now cooldown s.2.1 s.2.2)
        else refreshUpdateAndLog db cid now cooldown s.2.1 s.2.2

/-- The batch of claims due for a metrics refresh, capped at MAX_BATCH = 200.
The `order_by("next_check_at")` processing order is modelled as table order,
which none of the verified properties depend on. -/
def refreshBatch (db : DB) (now : Nat) : List Nat :=
  ((db.claims.filter fun p => refreshEligible p.2 now).take 200).map fun p => p.1

/-- CronMetricsRefreshView.get, after the shared-secret guard and the external
stats fetch (passed in as `stats` mapping video id to (views, likes)). -/
def refreshMetrics (db : DB) (stats : List (String × Nat × Nat)) (now cooldown : Nat) : DB × Nat :=
  ((refreshBatch db now).foldl (refreshOne cooldown stats now) db,
   (refreshBatch db now).countP fun cid =>
     match alookup db.claims cid with
     | some c => (stats.find? fun s => s.1 == c.youtube_video_id).isSome
     | none => false)

-- ## Core operations as a transition system

inductive Op
  | allocateOp (workId user now k : Nat)
  | submitOp (claimId user : Nat) (u : Url) (now : Nat)
  | sweepOp (workId now : Nat)
  | approveClaimOp (claimId : Nat)
  | rejectClaimOp (claimId : Nat)
  | approveMilestoneOp (pk now : Nat)
  | rejectMilestoneOp (pk now : Nat)
  | requestWithdrawalOp (user : Nat) (amount : Int) (vpa : String)
  | approveWithdrawalOp (pk now : Nat)
  | rejectWithdrawalOp (pk : Nat) (note : String) (now : Nat)
  | refreshMetricsOp (stats : List (String × Nat × Nat)) (now cooldown : Nat)

def step (db : DB) : Op → DB
  | .allocateOp w u n k => (allocate db w u n k).1
  | .submitOp c u url n => (submit db c u url n).1
  | .sweepOp w n => (sweepExpired db w n).1
  | .approveClaimOp c => (approveClaim db c).1
  | .rejectClaimOp c => (rejectClaim db c).1
  | .approveMilestoneOp p n => (approveMilestone db p n).1
  | .rejectMilestoneOp p n => (rejectMilestone db p n).1
  | .requestWithdrawalOp u a v => (requestWithdrawal db u a v).1
  | .approveWithdrawalOp p n => (approveWithdrawal db p n).1
  | .rejectWithdrawalOp p note n => (rejectWithdrawal db p note n).1
  | .refreshMetricsOp s n cd => (refreshMetrics db s n cd).1

def run (db : DB) (ops : List Op) : DB := ops.foldl step db

-- ## Invariants

/-- Ledger invariant: every wallet's cached balance is the signed sum of
its transactions, every transaction references an existing wallet row, and
every withdrawal request references an existing wallet row. -/
def walletInv (db : DB) : Prop :=
  (∀ p ∈ db.wallets, alookup db.wallets p.1 = some p.2 → p.2 = txnSum db.txns p.1) ∧
  (∀ p ∈ db.txns, (alookup db.wallets p.2.wallet).isSome = true) ∧
  (∀ p ∈ db.withdrawals, (alookup db.wallets p.2.wallet).isSome = true)

instance (db : DB) : Decidable (walletInv db) := by
  unfold walletInv; infer_instance

/-- At most one MilestonePayout row per (claim, rule) pair. -/
def mpUnique (db : DB) : Prop :=
  ∀ p ∈ db.payouts,
    (db.payouts.countP fun q => q.2.claim == p.2.claim && q.2.rule == p.2.rule) ≤ 1

instance (db : DB) : Decidable (mpUnique db) := by
  unfold mpUnique; infer_instance

-- ## Association-list lemmas

theorem alookup_append_left {α : Type} {l l2 : List (Nat × α)} {k : Nat} {v : α}
    (h : alookup l k = some v) : alookup (l ++ l2) k = some v := by
  induction l with
  | nil => simp [alookup] at h
  | cons p rest ih =>
    rw [List.cons_append]
    unfold alookup at h ⊢
    by_cases hp : p.1 = k
    · simpa [hp] using h
    · simp only [hp, if_false] at h ⊢
      exact ih h

theorem alookup_append_none {α : Type} {l : List (Nat × α)} {k : Nat}
    (h : alookup l k = none) (l2 : List (Nat × α)) : alookup (l ++ l2) k = alookup l2 k := by
  induction l with
  | nil => rw [List.nil_append]
  | cons p rest ih =>
    rw [List.cons_append]
    show (if p.1 = k then some p.2 else alookup (rest ++ l2) k) = alookup l2 k
    rw [show alookup (p :: rest) k = if p.1 = k then some p.2 else alookup rest k from rfl] at h
    by_cases hp : p.1 = k
    · rw [if_pos hp] at h; exact absurd h (by simp)
    · rw [if_neg hp] at h
      rw [if_neg hp]
      exact ih h

theorem alookup_mem {α : Type} {l : List (Nat × α)} {k : Nat} {v : α}
    (h : alookup l k = some v) : (k, v) ∈ l := by
  induction l with
  | nil => simp [alookup] at h
  | cons p rest ih =>
    unfold alookup at h
    by_cases hp : p.1 = k
    · simp only [hp, if_true] at h
      have hv : p.2 = v := by injection h
      have hpkv : p = (k, v) := by
        cases p with
        | mk a b => simp at hp hv; rw [hp, hv]
      rw [← hpkv]
      exact List.mem_cons_self p rest
    · simp only [hp, if_false] at h
      exact List.mem_cons_of_mem p (ih h)

theorem alookup_aupdate_self {α : Type} (l : List (Nat × α)) (k : Nat) (f : α → α) :
    alookup (aupdate l k f) k = (alookup l k).map f := by
  induction l with
  | nil => rfl
  | cons p rest ih =>
    show alookup ((if p.1 = k then (p.1, f p.2) else p) :: aupdate rest k f) k
        = (alookup (p :: rest) k).map f
    by_cases hp : p.1 = k
    · rw [if_pos hp]
      show (if p.1 = k then some (f p.2) else alookup (aupdate rest k f) k)
          = (if p.1 = k then some p.2 else alookup rest k).map f
      rw [if_pos hp, if_pos hp]
      rfl
    · rw [if_neg hp]
      show (if p.1 = k then some p.2 else alookup (aupdate rest k f) k)
          = (if p.1 = k then some p.2 else alookup rest k).map f
      rw [if_neg hp, if_neg hp]
      exact ih

theorem alookup_aupdate_ne {α : Type} (l : List (Nat × α)) {k j : Nat} (f : α → α) (h : j ≠ k) :
    alookup (aupdate l k f) j = alookup l j := by
  induction l with
  | nil => rfl
  | cons p rest ih =>
    show alookup ((if p.1 = k then (p.1, f p.2) else p) :: aupdate rest k f) j = alookup (p :: rest) j
    by_cases hpk : p.1 = k
    · rw [if_pos hpk]
      have hpj : ¬ p.1 = j := by rw [hpk]; exact fun hkj => h hkj.symm
      show (if p.1 = j then some (f p.2) else alookup (aupdate rest k f) j)
          = (if p.1 = j then some p.2 else alookup rest j)
      rw [if_neg hpj, if_neg hpj]
      exact ih
    · rw [if_neg hpk]
      show (if p.1 = j then some p.2 else alookup (aupdate rest k f) j)
          = (if p.1 = j then some p.2 else alookup rest j)
      by_cases hpj : p.1 = j
      · rw [if_pos hpj, if_pos hpj]
      · rw [if_neg hpj, if_neg hpj]
        exact ih

theorem alookup_aupdate_isSome {α : Type} (l : List (Nat × α)) (k j : Nat) (f : α → α) :
    (alookup (aupdate l k f) j).isSome = (alookup l j).isSome := by
  by_cases h : j = k
  · subst h; rw [alookup_aupdate_self]; cases alookup l j <;> rfl
  · rw [alookup_aupdate_ne l f h]

theorem alookup_append_isSome {α : Type} {l : List (Nat × α)} {j : Nat}
    (l2 : List (Nat × α)) (h : (alookup l j).isSome = true) :
    (alookup (l ++ l2) j).isSome = true := by
  cases hv : alookup l j with
  | none => rw [hv] at h; simp at h
  | some v => rw [alookup_append_left hv]; rfl

-- ## Ledger-sum lemmas

theorem txnSum_append (t1 t2 : List (Nat × WalletTransaction)) (u : Nat) :
    txnSum (t1 ++ t2) u = txnSum t1 u + txnSum t2 u := by
  simp [txnSum, List.filter_append]

theorem txnSum_single (i : Nat) (t : WalletTransaction) (u : Nat) :
    txnSum [(i, t)] u = if t.wallet = u then t.amount else 0 := by
  by_cases h : t.wallet = u
  · have hb : ((i, t).2.wallet == u) = true := by simpa using h
    simp [txnSum, List.filter, hb, h]
  · have hb : ((i, t).2.wallet == u) = false := by simpa using h
    simp [txnSum, List.filter, hb, h]

theorem txnSum_zero_of_absent {txns : List (Nat × WalletTransaction)} {wallets : List (Nat × Int)} {u : Nat}
    (hfk : ∀ p ∈ txns, (alookup wallets p.2.wallet).isSome = true)
    (hu : alookup wallets u = none) : txnSum txns u = 0 := by
  induction txns with
  | nil => rfl
  | cons p rest ih =>
    have hp := hfk p (List.mem_cons_self p rest)
    have hpw : ¬ (p.2.wallet = u) := by
      intro he
      rw [he, hu] at hp
      simp at hp
    have hrest : txnSum rest u = 0 := ih fun q hq => hfk q (List.mem_cons_of_mem p hq)
    have hsplit : txnSum (p :: rest) u = txnSum [p] u + txnSum rest u := txnSum_append [p] rest u
    rw [hsplit, hrest]
    cases p with
    | mk i t =>
      rw [txnSum_single i t u, if_neg hpw]
      simp

-- ## Wallet-invariant machinery

/-- `walletInv` restated through lookups, convenient for preservation proofs. -/
def walletInvL (db : DB) : Prop :=
  (∀ j b, alookup db.wallets j = some b → b = txnSum db.txns j) ∧
  (∀ p ∈ db.txns, (alookup db.wallets p.2.wallet).isSome = true) ∧
  (∀ p ∈ db.withdrawals, (alookup db.wallets p.2.wallet).isSome = true)

theorem walletInv_iff (db : DB) : walletInv db ↔ walletInvL db := by
  constructor
  · rintro ⟨h1, h2, h3⟩
    refine ⟨?_, h2, h3⟩
    intro j b hb
    exact h1 (j, b) (alookup_mem hb) hb
  · rintro ⟨h1, h2, h3⟩
    refine ⟨?_, h2, h3⟩
    intro p _ hp
    exact h1 p.1 p.2 hp

theorem walletInvL_congr {db db2 : DB} (hw : db2.wallets = db.wallets) (ht : db2.txns = db.txns)
    (hd : db2.withdrawals = db.withdrawals) (h : walletInvL db) : walletInvL db2 := by
  unfold walletInvL at h ⊢
  rw [hw, ht, hd]
  exact h

theorem getOrCreateWallet_eq (db : DB) (u : Nat) :
    getOrCreateWallet db u = db ∨
      (alookup db.wallets u = none ∧
        getOrCreateWallet db u = { db with wallets := db.wallets ++ [(u, 0)] }) := by
  unfold getOrCreateWallet
  cases h : alookup db.wallets u with
  | some b => left; rfl
  | none => right; exact ⟨rfl, rfl⟩

theorem getOrCreateWallet_walletInvL (db : DB) (u : Nat) (h : walletInvL db) :
    walletInvL (getOrCreateWallet db u) := by
  rcases getOrCreateWallet_eq db u with he | ⟨hu, he⟩
  · rw [he]; exact h
  · rw [he]
    obtain ⟨h1, h2, h3⟩ := h
    refine ⟨?_, ?_, ?_⟩
    · intro j b hb
      by_cases hj : (alookup db.wallets j).isSome = true
      · cases hv : alookup db.wallets j with
        | none => rw [hv] at hj; simp at hj
        | some v =>
          rw [show (({ db with wallets := db.wallets ++ [(u, 0)] } : DB)).wallets = db.wallets ++ [(u, 0)] from rfl] at hb
          rw [alookup_append_left hv] at hb
          injection hb with hb2
          rw [← hb2]
          exact h1 j v hv
      · have hv : alookup db.wallets j = none := by
          cases hv : alookup db.wallets j with
          | none => rfl
          | some v => rw [hv] at hj; simp at hj
        rw [show (({ db with wallets := db.wallets ++ [(u, 0)] } : DB)).wallets = db.wallets ++ [(u, 0)] from rfl] at hb
        rw [alookup_append_none hv] at hb
        by_cases hju : u = j
        · have hone : alookup [(u, (0 : Int))] j = some 0 := by
            show (if u = j then some (0 : Int) else alookup [] j) = some 0
            rw [if_pos hju]
          rw [hone] at hb
          injection hb with hb2
          rw [← hb2]
          exact (txnSum_zero_of_absent h2 hv).symm
        · have hnone : alookup [(u, (0 : Int))] j = none := by
            show (if u = j then some (0 : Int) else alookup [] j) = none
            rw [if_neg hju]
            rfl
          rw [hnone] at hb
          exact absurd hb (by simp)
    · intro p hp
      exact alookup_append_isSome [(u, 0)] (h2 p hp)
    · intro p hp
      exact alookup_append_isSome [(u, 0)] (h3 p hp)

theorem getOrCreateWallet_isSome (db : DB) (u : Nat) :
    (alookup (getOrCreateWallet db u).wallets u).isSome = true := by
  unfold getOrCreateWallet
  cases h : alookup db.wallets u with
  | some b => simpa using congrArg Option.isSome h
  | none =>
    show (alookup (db.wallets ++ [(u, 0)]) u).isSome = true
    rw [alookup_append_none h]
    simp [alookup]

theorem apply_transaction_walletInvL (db : DB) (u : Nat) (kind : TxnKind) (a : Int)
    (rc : Option Nat) (note : String) (h : walletInvL db)
    (hu : (alookup db.wallets u).isSome = true) :
    walletInvL (apply_transaction db u kind a rc note).1 := by
  obtain ⟨h1, h2, h3⟩ := h
  refine ⟨?_, ?_, ?_⟩
  · intro j b hb
    show b = txnSum (db.txns ++ [(db.seq, { wallet := u, kind := kind, amount := a, ref_claim := rc, note := note })]) j
    rw [txnSum_append, txnSum_single]
    have hwb : alookup (aupdate db.wallets u (· + a)) j = some b := hb
    by_cases hj : j = u
    · subst hj
      rw [alookup_aupdate_self] at hwb
      cases hv : alookup db.wallets j with
      | none => rw [hv] at hwb; simp at hwb
      | some v =>
        rw [hv] at hwb
        injection hwb with hwb2
        rw [← hwb2, h1 j v hv]
        simp
    · rw [alookup_aupdate_ne db.wallets (· + a) hj] at hwb
      have hne : ¬ (u = j) := fun he => hj he.symm
      rw [if_neg hne]
      rw [h1 j b hwb]
      simp
  · intro p hp
    show (alookup (aupdate db.wallets u (· + a)) p.2.wallet).isSome = true
    rw [alookup_aupdate_isSome]
    rcases List.mem_append.mp hp with hold | hnew
    · exact h2 p hold
    · have : p = (db.seq, { wallet := u, kind := kind, amount := a, ref_claim := rc, note := note }) := by
        simpa using hnew
      rw [this]
      cases hv : alookup db.wallets u with
      | none => rw [hv] at hu; simp at hu
      | some v => rfl
  · intro p hp
    show (alookup (aupdate db.wallets u (· + a)) p.2.wallet).isSome = true
    rw [alookup_aupdate_isSome]
    exact h3 p hp

-- ## The wallet invariant is preserved by every core operation

theorem foldl_pres {β : Type} {P : DB → Prop} (f : DB → β → DB)
    (hf : ∀ d b, P d → P (f d b)) : ∀ (l : List β) (d : DB), P d → P (l.foldl f d) := by
  intro l
  induction l with
  | nil => exact fun d h => h
  | cons b rest ih => exact fun d h => ih (f d b) (hf d b h)

theorem allocate_walletInvL (db : DB) (w u n k : Nat) (h : walletInvL db) :
    walletInvL (allocate db w u n k).1 := by
  unfold allocate
  repeat' split
  all_goals exact h

theorem submit_walletInvL (db : DB) (cid u : Nat) (url : Url) (n : Nat) (h : walletInvL db) :
    walletInvL (submit db cid u url n).1 := by
  unfold submit
  repeat' split
  all_goals exact h

theorem expireOne_walletInvL (wid : Nat) (d : DB) (p : Nat × WorkClaim) (h : walletInvL d) :
    walletInvL (expireOne wid d p) :=
  walletInvL_congr rfl rfl rfl h

theorem sweepExpired_walletInvL (db : DB) (w n : Nat) (h : walletInvL db) :
    walletInvL (sweepExpired db w n).1 := by
  unfold sweepExpired
  split
  · exact h
  · exact foldl_pres (expireOne w) (expireOne_walletInvL w) (expiringClaims db w n) db h

theorem creditClaimTxn_walletInvL (d : DB) (u cid : Nat) (a : Int) (h : walletInvL d)
    (hu : (alookup d.wallets u).isSome = true) : walletInvL (creditClaimTxn d u cid a) := by
  unfold creditClaimTxn
  split
  · exact h
  · exact apply_transaction_walletInvL d u .task_credit a (some cid)
      ("Approved claim #" ++ toString cid) h hu

theorem approveClaim_walletInvL (db : DB) (cid : Nat) (h : walletInvL db) :
    walletInvL (approveClaim db cid).1 := by
  unfold approveClaim
  split
  · exact h
  · rename_i claim heq
    split
    · exact h
    · exact creditClaimTxn_walletInvL _ _ _ _
        (getOrCreateWallet_walletInvL _ claim.user (walletInvL_congr rfl rfl rfl h))
        (getOrCreateWallet_isSome _ claim.user)

theorem rejectClaim_walletInvL (db : DB) (cid : Nat) (h : walletInvL db) :
    walletInvL (rejectClaim db cid).1 := by
  unfold rejectClaim
  repeat' split
  all_goals exact h

theorem milestoneSetApproved_walletInvL (pk now tid : Nat) (d : DB) (h : walletInvL d) :
    walletInvL (milestoneSetApproved pk now tid d) :=
  walletInvL_congr rfl rfl rfl h

theorem approveMilestone_walletInvL (db : DB) (pk n : Nat) (h : walletInvL db) :
    walletInvL (approveMilestone db pk n).1 := by
  unfold approveMilestone
  split
  · exact h
  · rename_i mp heq
    split
    · exact h
    · split
      · exact h
      · rename_i c heqc
        split
        · exact milestoneSetApproved_walletInvL _ _ _ _
            (getOrCreateWallet_walletInvL db c.user h)
        · exact milestoneSetApproved_walletInvL _ _ _ _
            (apply_transaction_walletInvL _ _ _ _ _ _
              (getOrCreateWallet_walletInvL db c.user h)
              (getOrCreateWallet_isSome db c.user))

theorem rejectMilestone_walletInvL (db : DB) (pk n : Nat) (h : walletInvL db) :
    walletInvL (rejectMilestone db pk n).1 := by
  unfold rejectMilestone
  repeat' split
  all_goals exact h

theorem newWithdrawal_walletInvL (d : DB) (u : Nat) (a : Int) (v : String) (h : walletInvL d)
    (hu : (alookup d.wallets u).isSome = true) : walletInvL (newWithdrawal d u a v) := by
  obtain ⟨h1, h2, h3⟩ := h
  refine ⟨h1, h2, ?_⟩
  intro p hp
  rcases List.mem_append.mp hp with hold | hnew
  · exact h3 p hold
  · have hp2 : p = (d.seq, { wallet := u, amount := a, upi_vpa := v, status := .pending }) := by
      simpa using hnew
    rw [hp2]
    exact hu

theorem requestWithdrawal_walletInvL (db : DB) (u : Nat) (a : Int) (v : String) (h : walletInvL db) :
    walletInvL (requestWithdrawal db u a v).1 := by
  unfold requestWithdrawal
  split
  · exact h
  · split
    · exact getOrCreateWallet_walletInvL db u h
    · split
      · exact getOrCreateWallet_walletInvL db u h
      · exact apply_transaction_walletInvL _ _ _ _ _ _
          (newWithdrawal_walletInvL _ u a (strStrip v)
            (getOrCreateWallet_walletInvL db u h) (getOrCreateWallet_isSome db u))
          (getOrCreateWallet_isSome db u)

theorem aupdate_wr_walletInvL (db : DB) (pk : Nat) (f : WithdrawalRequest → WithdrawalRequest)
    (hf : ∀ w, (f w).wallet = w.wallet) (h : walletInvL db) :
    walletInvL { db with withdrawals := aupdate db.withdrawals pk f } := by
  obtain ⟨h1, h2, h3⟩ := h
  refine ⟨h1, h2, ?_⟩
  intro p hp
  rcases List.mem_map.mp hp with ⟨q, hq, hpq⟩
  have hw : p.2.wallet = q.2.wallet := by
    rw [← hpq]
    by_cases hqk : q.1 = pk
    · simp [hqk, hf]
    · simp [hqk]
  show (alookup db.wallets p.2.wallet).isSome = true
  rw [hw]
  exact h3 q hq

theorem approveWithdrawal_walletInvL (db : DB) (pk n : Nat) (h : walletInvL db) :
    walletInvL (approveWithdrawal db pk n).1 := by
  unfold approveWithdrawal
  split
  · exact h
  · rename_i wr heq
    split
    · exact h
    · exact apply_transaction_walletInvL _ _ _ _ _ _
        (aupdate_wr_walletInvL db pk _ (fun w => rfl) h)
        (h.2.2 (pk, wr) (alookup_mem heq))

theorem rejectWithdrawal_walletInvL (db : DB) (pk : Nat) (note : String) (n : Nat) (h : walletInvL db) :
    walletInvL (rejectWithdrawal db pk note n).1 := by
  unfold rejectWithdrawal
  split
  · exact h
  · rename_i wr heq
    split
    · exact h
    · exact apply_transaction_walletInvL _ _ _ _ _ _
        (aupdate_wr_walletInvL db pk _ (fun w => rfl) h)
        (h.2.2 (pk, wr) (alookup_mem heq))

theorem createPayoutIfAbsent_walletInvL (cid views likes : Nat) (d : DB) (rp : Nat × MilestoneRule)
    (h : walletInvL d) : walletInvL (createPayoutIfAbsent cid views likes d rp) := by
  unfold createPayoutIfAbsent
  split
  · exact h
  · exact walletInvL_congr rfl rfl rfl h

theorem refreshOne_walletInvL (cd : Nat) (stats : List (String × Nat × Nat)) (n : Nat)
    (d : DB) (cid : Nat) (h : walletInvL d) : walletInvL (refreshOne cd stats n d cid) := by
  unfold refreshOne
  split
  · exact h
  · split
    · exact h
    · split
      · exact h
      · split
        · exact foldl_pres _ (fun d2 rp h2 => createPayoutIfAbsent_walletInvL _ _ _ d2 rp h2) _ _
            (walletInvL_congr rfl rfl rfl h)
        · exact walletInvL_congr rfl rfl rfl h

theorem refreshMetrics_walletInvL (db : DB) (stats : List (String × Nat × Nat)) (n cd : Nat)
    (h : walletInvL db) : walletInvL (refreshMetrics db stats n cd).1 := by
  unfold refreshMetrics
  exact foldl_pres _ (fun d c h2 => refreshOne_walletInvL cd stats n d c h2) _ db h

theorem step_walletInvL (db : DB) (op : Op) (h : walletInvL db) : walletInvL (step db op) := by
  cases op with
  | allocateOp w u n k => exact allocate_walletInvL db w u n k h
  | submitOp c u url n => exact submit_walletInvL db c u url n h
  | sweepOp w n => exact sweepExpired_walletInvL db w n h
  | approveClaimOp c => exact approveClaim_walletInvL db c h
  | rejectClaimOp c => exact rejectClaim_walletInvL db c h
  | approveMilestoneOp p n => exact approveMilestone_walletInvL db p n h
  | rejectMilestoneOp p n => exact rejectMilestone_walletInvL db p n h
  | requestWithdrawalOp u a v => exact requestWithdrawal_walletInvL db u a v h
  | approveWithdrawalOp p n => exact approveWithdrawal_walletInvL db p n h
  | rejectWithdrawalOp p note n => exact rejectWithdrawal_walletInvL db p note n h
  | refreshMetricsOp s n cd => exact refreshMetrics_walletInvL db s n cd h

theorem run_walletInv (db : DB) (ops : List Op) (h : walletInv db) : walletInv (run db ops) := by
  rw [walletInv_iff] at h ⊢
  exact foldl_pres step (fun d op h2 => step_walletInvL d op h2) ops db h

-- ## Field projections of the primitive state updates

theorem setReview_claims (r : ReviewStatus) (db : DB) (cid : Nat) :
    (setReview r db cid).claims = aupdate db.claims cid fun c => { c with review_status := r } := rfl

theorem setReview_txns (r : ReviewStatus) (db : DB) (cid : Nat) :
    (setReview r db cid).txns = db.txns := rfl

theorem setReview_wallets (r : ReviewStatus) (db : DB) (cid : Nat) :
    (setReview r db cid).wallets = db.wallets := rfl

theorem setReview_seq (r : ReviewStatus) (db : DB) (cid : Nat) :
    (setReview r db cid).seq = db.seq := rfl

theorem getOrCreateWallet_claims (d : DB) (u : Nat) : (getOrCreateWallet d u).claims = d.claims := by
  rcases getOrCreateWallet_eq d u with he | ⟨_, he⟩ <;> rw [he]

theorem getOrCreateWallet_txns (d : DB) (u : Nat) : (getOrCreateWallet d u).txns = d.txns := by
  rcases getOrCreateWallet_eq d u with he | ⟨_, he⟩ <;> rw [he]

theorem getOrCreateWallet_withdrawals (d : DB) (u : Nat) :
    (getOrCreateWallet d u).withdrawals = d.withdrawals := by
  rcases getOrCreateWallet_eq d u with he | ⟨_, he⟩ <;> rw [he]

theorem getOrCreateWallet_seq (d : DB) (u : Nat) : (getOrCreateWallet d u).seq = d.seq := by
  rcases getOrCreateWallet_eq d u with he | ⟨_, he⟩ <;> rw [he]

theorem getOrCreateWallet_payouts (d : DB) (u : Nat) : (getOrCreateWallet d u).payouts = d.payouts := by
  rcases getOrCreateWallet_eq d u with he | ⟨_, he⟩ <;> rw [he]

theorem getOrCreateWallet_of_some {d : DB} {u : Nat} {b : Int}
    (h : alookup d.wallets u = some b) : getOrCreateWallet d u = d := by
  unfold getOrCreateWallet
  rw [h]

theorem apply_transaction_txns (db : DB) (u : Nat) (kind : TxnKind) (a : Int)
    (rc : Option Nat) (note : String) :
    (apply_transaction db u kind a rc note).1.txns =
      db.txns ++ [(db.seq, { wallet := u, kind := kind, amount := a, ref_claim := rc, note := note })] := rfl

theorem apply_transaction_wallets (db : DB) (u : Nat) (kind : TxnKind) (a : Int)
    (rc : Option Nat) (note : String) :
    (apply_transaction db u kind a rc note).1.wallets = aupdate db.wallets u (· + a) := rfl

theorem apply_transaction_claims (db : DB) (u : Nat) (kind : TxnKind) (a : Int)
    (rc : Option Nat) (note : String) :
    (apply_transaction db u kind a rc note).1.claims = db.claims := rfl

theorem apply_transaction_withdrawals (db : DB) (u : Nat) (kind : TxnKind) (a : Int)
    (rc : Option Nat) (note : String) :
    (apply_transaction db u kind a rc note).1.withdrawals = db.withdrawals := rfl

theorem apply_transaction_seq (db : DB) (u : Nat) (kind : TxnKind) (a : Int)
    (rc : Option Nat) (note : String) :
    (apply_transaction db u kind a rc note).1.seq = db.seq + 1 := rfl

theorem creditClaimTxn_claims (d : DB) (u cid : Nat) (a : Int) :
    (creditClaimTxn d u cid a).claims = d.claims := by
  unfold creditClaimTxn
  split <;> rfl

theorem creditClaimTxn_withdrawals (d : DB) (u cid : Nat) (a : Int) :
    (creditClaimTxn d u cid a).withdrawals = d.withdrawals := by
  unfold creditClaimTxn
  split <;> rfl

theorem setWithdrawal_wallets (db : DB) (pk : Nat) (f : WithdrawalRequest → WithdrawalRequest) :
    (setWithdrawal db pk f).wallets = db.wallets := rfl

theorem setWithdrawal_txns (db : DB) (pk : Nat) (f : WithdrawalRequest → WithdrawalRequest) :
    (setWithdrawal db pk f).txns = db.txns := rfl

theorem setWithdrawal_seq (db : DB) (pk : Nat) (f : WithdrawalRequest → WithdrawalRequest) :
    (setWithdrawal db pk f).seq = db.seq := rfl

theorem newWithdrawal_wallets (d : DB) (u : Nat) (a : Int) (v : String) :
    (newWithdrawal d u a v).wallets = d.wallets := rfl

theorem newWithdrawal_txns (d : DB) (u : Nat) (a : Int) (v : String) :
    (newWithdrawal d u a v).txns = d.txns := rfl

theorem newWithdrawal_seq (d : DB) (u : Nat) (a : Int) (v : String) :
    (newWithdrawal d u a v).seq = d.seq + 1 := rfl

theorem newWithdrawal_withdrawals (d : DB) (u : Nat) (a : Int) (v : String) :
    (newWithdrawal d u a v).withdrawals =
      d.withdrawals ++ [(d.seq, { wallet := u, amount := a, upi_vpa := v, status := .pending })] := rfl

-- ## Equation lemmas for the review and withdrawal operations

theorem approveClaim_already {db : DB} {cid : Nat} {c : WorkClaim}
    (h : alookup db.claims cid = some c) (ha : c.review_status = ReviewStatus.approved) :
    approveClaim db cid = (db, Except.ok ()) := by
  unfold approveClaim
  split
  · rename_i heq
    rw [h] at heq
    exact Option.noConfusion heq
  · rename_i c2 heq
    rw [h] at heq
    injection heq with he
    subst he
    rw [if_pos ha]

theorem approveClaim_fresh {db : DB} {cid : Nat} {c : WorkClaim}
    (h : alookup db.claims cid = some c) (ha : c.review_status ≠ ReviewStatus.approved) :
    approveClaim db cid =
      (creditClaimTxn (getOrCreateWallet (setReview .approved db cid) c.user) c.user cid c.payout_amount,
       Except.ok ()) := by
  unfold approveClaim
  split
  · rename_i heq
    rw [h] at heq
    exact Option.noConfusion heq
  · rename_i c2 heq
    rw [h] at heq
    injection heq with he
    subst he
    rw [if_neg ha]

theorem rejectClaim_already {db : DB} {cid : Nat} {c : WorkClaim}
    (h : alookup db.claims cid = some c) (ha : c.review_status = ReviewStatus.rejected) :
    rejectClaim db cid = (db, Except.ok ()) := by
  unfold rejectClaim
  split
  · rename_i heq
    rw [h] at heq
    exact Option.noConfusion heq
  · rename_i c2 heq
    rw [h] at heq
    injection heq with he
    subst he
    rw [if_pos ha]

theorem rejectClaim_fresh {db : DB} {cid : Nat} {c : WorkClaim}
    (h : alookup db.claims cid = some c) (ha : c.review_status ≠ ReviewStatus.rejected) :
    rejectClaim db cid = (setReview .rejected db cid, Except.ok ()) := by
  unfold rejectClaim
  split
  · rename_i heq
    rw [h] at heq
    exact Option.noConfusion heq
  · rename_i c2 heq
    rw [h] at heq
    injection heq with he
    subst he
    rw [if_neg ha]

theorem approveWithdrawal_terminal {db : DB} {pk : Nat} {wr : WithdrawalRequest}
    (h : alookup db.withdrawals pk = some wr) (ht : wr.status ≠ WRStatus.pending) (now : Nat) :
    approveWithdrawal db pk now = (db, Except.error WithdrawAdminErr.alreadyProcessed) := by
  unfold approveWithdrawal
  split
  · rename_i heq
    rw [h] at heq
    exact Option.noConfusion heq
  · rename_i wr2 heq
    rw [h] at heq
    injection heq with he
    subst he
    rw [if_pos ht]

theorem rejectWithdrawal_terminal {db : DB} {pk : Nat} {wr : WithdrawalRequest}
    (h : alookup db.withdrawals pk = some wr) (ht : wr.status ≠ WRStatus.pending)
    (note : String) (now : Nat) :
    rejectWithdrawal db pk note now = (db, Except.error WithdrawAdminErr.alreadyProcessed) := by
  unfold rejectWithdrawal
  split
  · rename_i heq
    rw [h] at heq
    exact Option.noConfusion heq
  · rename_i wr2 heq
    rw [h] at heq
    injection heq with he
    subst he
    rw [if_pos ht]

theorem rejectWithdrawal_pending {db : DB} {pk : Nat} {wr : WithdrawalRequest}
    (h : alookup db.withdrawals pk = some wr) (ht : wr.status = WRStatus.pending)
    (note : String) (now : Nat) :
    rejectWithdrawal db pk note now =
      ((apply_transaction (setWithdrawal db pk (wrReject now (strTake note 255)))
          wr.wallet .reversal wr.amount none ("Reversal of hold WR#" ++ toString pk)).1,
       Except.ok ()) := by
  unfold rejectWithdrawal
  split
  · rename_i heq
    rw [h] at heq
    exact Option.noConfusion heq
  · rename_i wr2 heq
    rw [h] at heq
    injection heq with he
    subst he
    rw [if_neg (by rw [ht]; intro hx; exact hx rfl)]

-- ## Claim C7

def c7db : DB :=
  { claims := [(1, { user := 7, work := 1, payout_amount := 100, review_status := .rejected })] }

/-- C7 counterexample: claim 1 carries the terminal review_status `rejected`,
yet a later approveClaim call flips it to `approved` — the code lets the
opposite admin decision overwrite a terminal review decision, refuting the
claim that review_status never changes to the other terminal value. -/
theorem c7_counterexample :
    (alookup c7db.claims 1).map (fun c => c.review_status) = some ReviewStatus.rejected ∧
    (alookup (approveClaim c7db 1).1.claims 1).map (fun c => c.review_status) =
      some ReviewStatus.approved := by
  decide

/-- C7 (amended): re-applying the same review decision is a no-op returning
success and leaving the store untouched, but the opposite admin action does
overwrite a terminal review_status: approveClaim flips a rejected claim to
approved, and rejectClaim flips an approved claim to rejected. -/
theorem c7_review_decisions (db : DB) (cid : Nat) (c : WorkClaim)
    (h : alookup db.claims cid = some c) :
    (c.review_status = ReviewStatus.approved → approveClaim db cid = (db, Except.ok ())) ∧
    (c.review_status = ReviewStatus.rejected → rejectClaim db cid = (db, Except.ok ())) ∧
    (c.review_status = ReviewStatus.rejected →
      alookup (approveClaim db cid).1.claims cid =
        some { c with review_status := ReviewStatus.approved }) ∧
    (c.review_status = ReviewStatus.approved →
      alookup (rejectClaim db cid).1.claims cid =
        some { c with review_status := ReviewStatus.rejected }) := by
  refine ⟨fun ha => approveClaim_already h ha, fun hr => rejectClaim_already h hr, ?_, ?_⟩
  · intro hr
    have hne : c.review_status ≠ ReviewStatus.approved := by
      rw [hr]
      intro hx
      cases hx
    rw [approveClaim_fresh h hne]
    show alookup (creditClaimTxn (getOrCreateWallet (setReview .approved db cid) c.user)
        c.user cid c.payout_amount).claims cid = some { c with review_status := ReviewStatus.approved }
    rw [creditClaimTxn_claims, getOrCreateWallet_claims, setReview_claims,
      alookup_aupdate_self, h]
    rfl
  · intro ha
    have hne : c.review_status ≠ ReviewStatus.rejected := by
      rw [ha]
      intro hx
      cases hx
    rw [rejectClaim_fresh h hne]
    show alookup (setReview .rejected db cid).claims cid =
      some { c with review_status := ReviewStatus.rejected }
    rw [setReview_claims, alookup_aupdate_self, h]
    rfl

def c7claim : WorkClaim := { user := 7, work := 1, review_status := ReviewStatus.rejected }

def c7wdb : DB := { claims := [(1, c7claim)] }

/-- Witness for the amended C7 theorem at a concrete rejected claim. -/
theorem c7_review_decisions_witness :
    alookup c7wdb.claims 1 = some c7claim ∧
    ((c7claim.review_status = ReviewStatus.approved → approveClaim c7wdb 1 = (c7wdb, Except.ok ())) ∧
     (c7claim.review_status = ReviewStatus.rejected → rejectClaim c7wdb 1 = (c7wdb, Except.ok ())) ∧
     (c7claim.review_status = ReviewStatus.rejected →
       alookup (approveClaim c7wdb 1).1.claims 1 =
         some { c7claim with review_status := ReviewStatus.approved }) ∧
     (c7claim.review_status = ReviewStatus.approved →
       alookup (rejectClaim c7wdb 1).1.claims 1 =
         some { c7claim with review_status := ReviewStatus.rejected })) :=
  ⟨by decide, c7_review_decisions c7wdb 1 c7claim (by decide)⟩

-- ## Claim C8

def c8db : DB :=
  { wallets := [(7, 500)],
    withdrawals := [(1, { wallet := 7, amount := 200, upi_vpa := "a@b", status := .approved }),
                    (2, { wallet := 7, amount := 100, upi_vpa := "a@b", status := .rejected })] }

/-- C8 counterexample: re-processing an already approved (or rejected)
withdrawal request is answered with the error outcome (HTTP 400
"Already processed"), not with success as the claim states; only the
"state unchanged" half of the claim holds. -/
theorem c8_counterexample :
    (approveWithdrawal c8db 1 9).2 = Except.error WithdrawAdminErr.alreadyProcessed ∧
    ¬ (approveWithdrawal c8db 1 9).2 = Except.ok () ∧
    (rejectWithdrawal c8db 2 "again" 9).2 = Except.error WithdrawAdminErr.alreadyProcessed ∧
    (approveWithdrawal c8db 1 9).1 = c8db ∧
    (rejectWithdrawal c8db 2 "again" 9).1 = c8db := by
  decide

/-- C8 (amended): for a withdrawal request already in a terminal state,
approveWithdrawal and rejectWithdrawal return the AlreadyProcessed outcome
as an error (HTTP 400 "Already processed"), not as success, and leave the
whole store — request and wallet included — unchanged. -/
theorem c8_already_processed (db : DB) (pk now : Nat) (note : String) (wr : WithdrawalRequest)
    (h : alookup db.withdrawals pk = some wr) (ht : wr.status ≠ WRStatus.pending) :
    approveWithdrawal db pk now = (db, Except.error WithdrawAdminErr.alreadyProcessed) ∧
    rejectWithdrawal db pk note now = (db, Except.error WithdrawAdminErr.alreadyProcessed) :=
  ⟨approveWithdrawal_terminal h ht now, rejectWithdrawal_terminal h ht note now⟩

def c8wr : WithdrawalRequest := { wallet := 7, amount := 200, upi_vpa := "a@b", status := .approved }

def c8wdb : DB := { wallets := [(7, 500)], withdrawals := [(1, c8wr)] }

/-- Witness for the amended C8 theorem at a concrete approved request. -/
theorem c8_already_processed_witness :
    (alookup c8wdb.withdrawals 1 = some c8wr ∧ c8wr.status ≠ WRStatus.pending) ∧
    (approveWithdrawal c8wdb 1 3 = (c8wdb, Except.error WithdrawAdminErr.alreadyProcessed) ∧
     rejectWithdrawal c8wdb 1 "n" 3 = (c8wdb, Except.error WithdrawAdminErr.alreadyProcessed)) :=
  ⟨⟨by decide, by decide⟩, c8_already_processed c8wdb 1 3 "n" c8wr (by decide) (by decide)⟩

-- ## Claim C9

theorem hasTaskCredit_congr {d d2 : DB} (u cid : Nat) (h : d2.txns = d.txns) :
    hasTaskCredit d2 u cid = hasTaskCredit d u cid := by
  unfold hasTaskCredit
  rw [h]

theorem creditClaimTxn_absent {d : DB} {u cid : Nat} (a : Int) (h : hasTaskCredit d u cid = false) :
    creditClaimTxn d u cid a =
      (apply_transaction d u .task_credit a (some cid) ("Approved claim #" ++ toString cid)).1 := by
  unfold creditClaimTxn
  rw [h]
  simp

/-- C9: approveClaim has no precondition on the claim's status axis: the
hypotheses constrain only review_status (not yet approved) and the absence
of a previous credit, leaving `c.status` fully unconstrained — a claim that
is still `claimed`, already `expired`, or `submitted` is approved and
credited identically: the call succeeds, review_status becomes approved and
exactly one task_credit of payout_amount is appended. -/
theorem c9_approve_ignores_status (db : DB) (cid : Nat) (c : WorkClaim)
    (h : alookup db.claims cid = some c) (hr : c.review_status ≠ ReviewStatus.approved)
    (hnc : hasTaskCredit db c.user cid = false) :
    (approveClaim db cid).2 = Except.ok () ∧
    alookup (approveClaim db cid).1.claims cid =
      some { c with review_status := ReviewStatus.approved } ∧
    (approveClaim db cid).1.txns = db.txns ++
      [(db.seq, { wallet := c.user, kind := TxnKind.task_credit, amount := c.payout_amount,
                  ref_claim := some cid, note := "Approved claim #" ++ toString cid })] := by
  have hX : (getOrCreateWallet (setReview .approved db cid) c.user).txns = db.txns := by
    rw [getOrCreateWallet_txns, setReview_txns]
  have hcred : hasTaskCredit (getOrCreateWallet (setReview .approved db cid) c.user) c.user cid = false := by
    rw [hasTaskCredit_congr c.user cid hX]
    exact hnc
  refine ⟨?_, ?_, ?_⟩
  · rw [approveClaim_fresh h hr]
  · rw [approveClaim_fresh h hr]
    show alookup (creditClaimTxn (getOrCreateWallet (setReview .approved db cid) c.user)
        c.user cid c.payout_amount).claims cid = _
    rw [creditClaimTxn_claims, getOrCreateWallet_claims, setReview_claims,
      alookup_aupdate_self, h]
    rfl
  · rw [approveClaim_fresh h hr]
    show (creditClaimTxn (getOrCreateWallet (setReview .approved db cid) c.user)
        c.user cid c.payout_amount).txns = _
    rw [creditClaimTxn_absent c.payout_amount hcred, apply_transaction_txns, hX,
      getOrCreateWallet_seq, setReview_seq]

def c9claim : WorkClaim :=
  { user := 7, work := 2, payout_amount := 150, status := ClaimStatus.expired,
    review_status := ReviewStatus.pending_review }

def c9db : DB := { claims := [(4, c9claim)], seq := 5 }

/-- Witness for C9 at a claim that already expired and was never submitted. -/
theorem c9_approve_ignores_status_witness :
    (alookup c9db.claims 4 = some c9claim ∧ c9claim.review_status ≠ ReviewStatus.approved ∧
     hasTaskCredit c9db c9claim.user 4 = false) ∧
    ((approveClaim c9db 4).2 = Except.ok () ∧
     alookup (approveClaim c9db 4).1.claims 4 =
       some { c9claim with review_status := ReviewStatus.approved } ∧
     (approveClaim c9db 4).1.txns = c9db.txns ++
       [(c9db.seq, { wallet := c9claim.user, kind := TxnKind.task_credit,
                     amount := c9claim.payout_amount, ref_claim := some 4,
                     note := "Approved claim #" ++ toString 4 })]) :=
  ⟨⟨by decide, by decide, by decide⟩,
   c9_approve_ignores_status c9db 4 c9claim (by decide) (by decide) (by decide)⟩

-- ## Claim C2

/-- `AdminApproveClaimView.post` applied `n` times in a row. -/
def approveN : Nat → DB → Nat → DB
  | 0, db, _ => db
  | n + 1, db, cid => approveN n (approveClaim db cid).1 cid

/-- The signed amounts of the task_credit transactions in wallet `u` that
reference claim `cid`. -/
def taskCreditsFor (txns : List (Nat × WalletTransaction)) (u cid : Nat) : List Int :=
  (txns.filter fun p =>
    p.2.wallet == u && p.2.kind == TxnKind.task_credit && p.2.ref_claim == some cid).map
    fun p => p.2.amount

theorem taskCreditsFor_append (t1 t2 : List (Nat × WalletTransaction)) (u cid : Nat) :
    taskCreditsFor (t1 ++ t2) u cid = taskCreditsFor t1 u cid ++ taskCreditsFor t2 u cid := by
  unfold taskCreditsFor
  rw [List.filter_append, List.map_append]

theorem taskCreditsFor_nil {db : DB} {u cid : Nat} (h : hasTaskCredit db u cid = false) :
    taskCreditsFor db.txns u cid = [] := by
  unfold taskCreditsFor
  have hall : ∀ p ∈ db.txns,
      ¬ (p.2.wallet == u && p.2.kind == TxnKind.task_credit && p.2.ref_claim == some cid) = true := by
    intro p hp hpred
    have : hasTaskCredit db u cid = true := List.any_eq_true.mpr ⟨p, hp, hpred⟩
    rw [h] at this
    cases this
  rw [List.filter_eq_nil_iff.mpr hall]
  rfl

theorem taskCreditsFor_new (i u cid : Nat) (a : Int) (note : String) :
    taskCreditsFor
      [(i, { wallet := u, kind := TxnKind.task_credit, amount := a, ref_claim := some cid, note := note })]
      u cid = [a] := by
  simp [taskCreditsFor, List.filter]

theorem approveClaim_id_of_approved {db : DB} {cid : Nat} {c : WorkClaim}
    (h : alookup db.claims cid = some c) (ha : c.review_status = ReviewStatus.approved) :
    (approveClaim db cid).1 = db := by
  rw [approveClaim_already h ha]

theorem approveN_id {db : DB} {cid : Nat} {c : WorkClaim}
    (h : alookup db.claims cid = some c) (ha : c.review_status = ReviewStatus.approved) :
    ∀ n, approveN n db cid = db := by
  intro n
  induction n with
  | zero => rfl
  | succ n ih =>
    show approveN n (approveClaim db cid).1 cid = db
    rw [approveClaim_id_of_approved h ha]
    exact ih

/-- C2 (amended): after one or more approveClaim calls on a claim that is not
yet approved and not yet credited, the user's wallet holds exactly one
task_credit transaction referencing the claim, and its amount is exactly the
claim's payout_amount: there is no fallback to the offer's price_per_item,
and a zero or negative payout_amount is still appended as a transaction of
that amount (the operation succeeds in every case). -/
theorem c2_exactly_one_task_credit (db : DB) (cid : Nat) (c : WorkClaim) (n : Nat)
    (h : alookup db.claims cid = some c) (hr : c.review_status ≠ ReviewStatus.approved)
    (hnc : hasTaskCredit db c.user cid = false) :
    taskCreditsFor (approveN (n + 1) db cid).txns c.user cid = [c.payout_amount] := by
  have hX : (getOrCreateWallet (setReview .approved db cid) c.user).txns = db.txns := by
    rw [getOrCreateWallet_txns, setReview_txns]
  have hcred : hasTaskCredit (getOrCreateWallet (setReview .approved db cid) c.user) c.user cid = false := by
    rw [hasTaskCredit_congr c.user cid hX]
    exact hnc
  have htx : (approveClaim db cid).1.txns = db.txns ++
      [(db.seq, { wallet := c.user, kind := TxnKind.task_credit, amount := c.payout_amount,
                  ref_claim := some cid, note := "Approved claim #" ++ toString cid })] := by
    rw [approveClaim_fresh h hr]
    show (creditClaimTxn (getOrCreateWallet (setReview .approved db cid) c.user)
        c.user cid c.payout_amount).txns = _
    rw [creditClaimTxn_absent c.payout_amount hcred, apply_transaction_txns, hX,
      getOrCreateWallet_seq, setReview_seq]
  have hlook : alookup (approveClaim db cid).1.claims cid =
      some { c with review_status := ReviewStatus.approved } := by
    rw [approveClaim_fresh h hr]
    show alookup (creditClaimTxn (getOrCreateWallet (setReview .approved db cid) c.user)
        c.user cid c.payout_amount).claims cid = _
    rw [creditClaimTxn_claims, getOrCreateWallet_claims, setReview_claims,
      alookup_aupdate_self, h]
    rfl
  show taskCreditsFor (approveN n (approveClaim db cid).1 cid).txns c.user cid = [c.payout_amount]
  rw [approveN_id hlook rfl n, htx, taskCreditsFor_append, taskCreditsFor_nil hnc,
    taskCreditsFor_new]
  rfl

/-- The crediting rule exactly as the specification words it (stated only to
refute it): the resolved amount is payout_amount, falling back to the
offer's price_per_item when payout_amount is unset or non-positive. -/
def specResolvedAmount (db : DB) (c : WorkClaim) : Int :=
  if 0 < c.payout_amount then c.payout_amount
  else ((alookup db.works c.work).map fun w => w.price_per_item).getD 0

/-- The claimed behaviour of one approval, following the specification's
words: a non-positive resolved amount appends no transaction, a positive
one appends exactly one credit of the resolved amount. -/
def specCreditRule (db : DB) (cid : Nat) (c : WorkClaim) : Prop :=
  if specResolvedAmount db c ≤ 0 then
    taskCreditsFor (approveClaim db cid).1.txns c.user cid = []
  else
    taskCreditsFor (approveClaim db cid).1.txns c.user cid = [specResolvedAmount db c]

instance (db : DB) (cid : Nat) (c : WorkClaim) : Decidable (specCreditRule db cid c) := by
  unfold specCreditRule
  infer_instance

def c2claim : WorkClaim := { user := 7, work := 3, payout_amount := 0 }

def c2db : DB :=
  { works := [(3, { file_batch := 1, price_per_item := 500 })],
    claims := [(1, c2claim)] }

-- ## Claim C6

theorem alookup_singleton_self {α : Type} (k : Nat) (v : α) : alookup [(k, v)] k = some v := by
  show (if k = k then some v else alookup [] k) = some v
  rw [if_pos rfl]

theorem requestWithdrawal_success {db : DB} {u : Nat} {a b : Int} {vpa : String}
    (hb : alookup db.wallets u = some b) (hpos : 0 < a) (hvpa : ¬ strStrip vpa = "")
    (hmin : db.min_withdraw.getD 0 ≤ a) (hbal : a ≤ b) :
    requestWithdrawal db u a vpa =
      ((apply_transaction (newWithdrawal db u a (strStrip vpa)) u .withdrawal_hold (-a) none
          ("Hold for WR#" ++ toString db.seq)).1,
       Except.ok db.seq) := by
  unfold requestWithdrawal
  rw [if_neg (not_or.mpr ⟨not_le.mpr hpos, hvpa⟩), if_neg (not_lt.mpr hmin),
    getOrCreateWallet_of_some hb, hb, Option.getD_some, if_neg (not_lt.mpr hbal)]

theorem requestWithdrawal_success_state {db : DB} {u : Nat} {a b : Int} {vpa : String}
    (hb : alookup db.wallets u = some b) (hpos : 0 < a) (hvpa : ¬ strStrip vpa = "")
    (hmin : db.min_withdraw.getD 0 ≤ a) (hbal : a ≤ b) :
    (requestWithdrawal db u a vpa).1 =
      (apply_transaction (newWithdrawal db u a (strStrip vpa)) u .withdrawal_hold (-a) none
        ("Hold for WR#" ++ toString db.seq)).1 := by
  rw [requestWithdrawal_success hb hpos hvpa hmin hbal]

theorem rejectWithdrawal_pending_state {db : DB} {pk : Nat} {wr : WithdrawalRequest}
    (h : alookup db.withdrawals pk = some wr) (ht : wr.status = WRStatus.pending)
    (note : String) (now : Nat) :
    (rejectWithdrawal db pk note now).1 =
      (apply_transaction (setWithdrawal db pk (wrReject now (strTake note 255)))
        wr.wallet .reversal wr.amount none ("Reversal of hold WR#" ++ toString pk)).1 := by
  rw [rejectWithdrawal_pending h ht note now]

/-- C6: requestWithdrawal followed by rejectWithdrawal round-trips the
balance: the request appends a withdrawal_hold transaction of -amount and
debits the balance immediately, and the rejection appends a reversal of
+amount, restoring the balance to exactly its pre-request value. -/
theorem c6_withdrawal_reject_roundtrip (db : DB) (u : Nat) (a b : Int) (vpa note : String)
    (now : Nat)
    (hb : alookup db.wallets u = some b) (hpos : 0 < a) (hvpa : ¬ strStrip vpa = "")
    (hmin : db.min_withdraw.getD 0 ≤ a) (hbal : a ≤ b)
    (hfresh : alookup db.withdrawals db.seq = none) :
    (requestWithdrawal db u a vpa).2 = Except.ok db.seq ∧
    alookup (requestWithdrawal db u a vpa).1.wallets u = some (b - a) ∧
    (rejectWithdrawal (requestWithdrawal db u a vpa).1 db.seq note now).2 = Except.ok () ∧
    alookup (rejectWithdrawal (requestWithdrawal db u a vpa).1 db.seq note now).1.wallets u = some b ∧
    (rejectWithdrawal (requestWithdrawal db u a vpa).1 db.seq note now).1.txns =
      db.txns ++
        [(db.seq + 1, { wallet := u, kind := TxnKind.withdrawal_hold, amount := -a,
                        ref_claim := none, note := "Hold for WR#" ++ toString db.seq }),
         (db.seq + 2, { wallet := u, kind := TxnKind.reversal, amount := a,
                        ref_claim := none, note := "Reversal of hold WR#" ++ toString db.seq })] := by
  have hstate1 := requestWithdrawal_success_state hb hpos hvpa hmin hbal
  have hwr : alookup (requestWithdrawal db u a vpa).1.withdrawals db.seq =
      some { wallet := u, amount := a, upi_vpa := strStrip vpa, status := .pending } := by
    rw [hstate1, apply_transaction_withdrawals, newWithdrawal_withdrawals,
      alookup_append_none hfresh, alookup_singleton_self]
  have hstate2 := rejectWithdrawal_pending_state hwr rfl note now
  refine ⟨?_, ?_, ?_, ?_, ?_⟩
  · rw [requestWithdrawal_success hb hpos hvpa hmin hbal]
  · rw [hstate1, apply_transaction_wallets, newWithdrawal_wallets, alookup_aupdate_self, hb]
    show some (b + -a) = some (b - a)
    rw [← Int.sub_eq_add_neg]
  · rw [rejectWithdrawal_pending hwr rfl note now]
  · rw [hstate2, apply_transaction_wallets, setWithdrawal_wallets, hstate1,
      apply_transaction_wallets, newWithdrawal_wallets, alookup_aupdate_self,
      alookup_aupdate_self, hb]
    show some (b + -a + a) = some b
    congr 1
    omega
  · rw [hstate2, apply_transaction_txns, setWithdrawal_txns, setWithdrawal_seq, hstate1,
      apply_transaction_txns, apply_transaction_seq, newWithdrawal_txns, newWithdrawal_seq,
      List.append_assoc]
    rfl

def c6db : DB := { wallets := [(7, 1000)], min_withdraw := some 100 }

/-- Witness for C6 at the spec's scenario: balance 1000, request 500, hold
-500 leaves 500, rejection reverses +500 back to 1000. -/
theorem c6_withdrawal_reject_roundtrip_witness :
    (alookup c6db.wallets 7 = some 1000 ∧ (0 : Int) < 500 ∧ ¬ strStrip " w@bank " = "" ∧
     c6db.min_withdraw.getD 0 ≤ 500 ∧ (500 : Int) ≤ 1000 ∧
     alookup c6db.withdrawals c6db.seq = none) ∧
    ((requestWithdrawal c6db 7 500 " w@bank ").2 = Except.ok c6db.seq ∧
     alookup (requestWithdrawal c6db 7 500 " w@bank ").1.wallets 7 = some (1000 - 500) ∧
     (rejectWithdrawal (requestWithdrawal c6db 7 500 " w@bank ").1 c6db.seq "no" 9).2 = Except.ok () ∧
     alookup (rejectWithdrawal (requestWithdrawal c6db 7 500 " w@bank ").1 c6db.seq "no" 9).1.wallets 7 =
       some 1000 ∧
     (rejectWithdrawal (requestWithdrawal c6db 7 500 " w@bank ").1 c6db.seq "no" 9).1.txns =
       c6db.txns ++
         [(c6db.seq + 1, { wallet := 7, kind := TxnKind.withdrawal_hold, amount := -500,
                           ref_claim := none, note := "Hold for WR#" ++ toString c6db.seq }),
          (c6db.seq + 2, { wallet := 7, kind := TxnKind.reversal, amount := 500,
                           ref_claim := none, note := "Reversal of hold WR#" ++ toString c6db.seq })]) :=
  ⟨⟨by decide, by decide, by decide, by decide, by decide, by decide⟩,
   c6_withdrawal_reject_roundtrip c6db 7 500 1000 " w@bank " "no" 9
     (by decide) (by decide) (by decide) (by decide) (by decide) (by decide)⟩

-- ## Claim C3

theorem allocChoose_mem (k : Nat) (c0 : Nat × FileItem) (rest : List (Nat × FileItem)) :
    allocChoose k c0 rest ∈ c0 :: rest := by
  unfold allocChoose
  have h : k % (c0 :: rest).length < (c0 :: rest).length :=
    Nat.mod_lt _ (by simp)
  rw [List.getD_eq_getElem?_getD, List.getElem?_eq_getElem h]
  exact List.getElem_mem h

theorem allocExpiry_pos {now : Nat} {w : Work} (h : 0 < w.deadline_minutes) :
    allocExpiry now w = now + w.deadline_minutes := by
  unfold allocExpiry
  rw [if_neg (Nat.pos_iff_ne_zero.mp h)]

theorem allocate_active_err {db : DB} {wid uid now k : Nat}
    (hT : userHasActiveClaim db uid now = true) :
    allocate db wid uid now k = (db, Except.error AllocErr.activeTask) := by
  unfold allocate
  rw [hT, if_pos rfl]

theorem allocate_participated_err {db : DB} {wid uid now k : Nat}
    (hF : userHasActiveClaim db uid now = false) (hT : userHasClaimOnWork db uid wid = true) :
    allocate db wid uid now k = (db, Except.error AllocErr.alreadyParticipated) := by
  unfold allocate
  rw [hF, if_neg Bool.false_ne_true, hT, if_pos rfl]

theorem allocate_soldout_err {db : DB} {wid uid now k : Nat} {w : Work}
    (hF : userHasActiveClaim db uid now = false) (hP : userHasClaimOnWork db uid wid = false)
    (hw : alookup db.works wid = some w) (hs : w.remaining_slots ≤ 0) :
    allocate db wid uid now k = (db, Except.error AllocErr.soldOut) := by
  unfold allocate
  rw [hF, if_neg Bool.false_ne_true, hP, if_neg Bool.false_ne_true]
  split
  · rename_i heq
    rw [hw] at heq
    exact Option.noConfusion heq
  · rename_i w2 heq
    rw [hw] at heq
    injection heq with he
    subst he
    rw [if_pos hs]

theorem allocate_outofinventory_err {db : DB} {wid uid now k : Nat} {w : Work}
    (hF : userHasActiveClaim db uid now = false) (hP : userHasClaimOnWork db uid wid = false)
    (hw : alookup db.works wid = some w) (hs : 0 < w.remaining_slots)
    (he : eligibleItems db w.file_batch = []) :
    allocate db wid uid now k = (db, Except.error AllocErr.outOfInventory) := by
  unfold allocate
  rw [hF, if_neg Bool.false_ne_true, hP, if_neg Bool.false_ne_true]
  split
  · rename_i heq
    rw [hw] at heq
    exact Option.noConfusion heq
  · rename_i w2 heq
    rw [hw] at heq
    injection heq with hew
    subst hew
    rw [if_neg (not_le.mpr hs)]
    split
    · rfl
    · rename_i c0 rest heq2
      rw [he] at heq2
      exact List.noConfusion heq2

theorem allocate_success_eq {db : DB} {wid uid now k : Nat} {w : Work}
    {c0 : Nat × FileItem} {rest : List (Nat × FileItem)}
    (hF : userHasActiveClaim db uid now = false) (hP : userHasClaimOnWork db uid wid = false)
    (hw : alookup db.works wid = some w) (hs : 0 < w.remaining_slots)
    (he : eligibleItems db w.file_batch = c0 :: rest) :
    allocate db wid uid now k = (allocSuccess db wid uid now k w c0 rest, Except.ok db.seq) := by
  unfold allocate
  rw [hF, if_neg Bool.false_ne_true, hP, if_neg Bool.false_ne_true]
  split
  · rename_i heq
    rw [hw] at heq
    exact Option.noConfusion heq
  · rename_i w2 heq
    rw [hw] at heq
    injection heq with hew
    subst hew
    rw [if_neg (not_le.mpr hs)]
    split
    · rename_i heq2
      rw [he] at heq2
      exact List.noConfusion heq2
    · rename_i c1 rest1 heq2
      rw [he] at heq2
      injection heq2 with he1 he2
      subst he1
      subst he2
      rfl

theorem allocSuccess_items (db : DB) (wid uid now k : Nat) (w : Work)
    (c0 : Nat × FileItem) (rest : List (Nat × FileItem)) :
    (allocSuccess db wid uid now k w c0 rest).items =
      aupdate db.items (allocChoose k c0 rest).1
        fun it => { it with used_count := it.used_count + 1 } := rfl

theorem allocSuccess_works (db : DB) (wid uid now k : Nat) (w : Work)
    (c0 : Nat × FileItem) (rest : List (Nat × FileItem)) :
    (allocSuccess db wid uid now k w c0 rest).works =
      aupdate db.works wid fun ww => { ww with remaining_slots := ww.remaining_slots - 1 } := rfl

theorem allocSuccess_claims (db : DB) (wid uid now k : Nat) (w : Work)
    (c0 : Nat × FileItem) (rest : List (Nat × FileItem)) :
    (allocSuccess db wid uid now k w c0 rest).claims =
      db.claims ++
        [(db.seq, newClaim uid wid (allocChoose k c0 rest).1 (allocChoose k c0 rest).2
            w.price_per_item now (allocExpiry now w))] := rfl

/-- C3: the allocation contract.  The offer lookup succeeds and
deadline_minutes is positive (the admin-facing work-creation endpoint clamps
it to at least 60, so every stored offer satisfies this): the user is
rejected whenever they already participated in this offer or hold an active
claim elsewhere; with those checks passed, zero remaining slots reject with
sold-out, an empty eligible-item pool fails with out-of-inventory, and
otherwise one eligible item of the offer's batch is chosen, its used_count
is incremented, remaining_slots is decremented, and a claim is created in
status claimed / pending_review with payout_amount = price_per_item and
expires_at = now + deadline_minutes. -/
theorem c3_allocate_contract (db : DB) (wid uid now k : Nat) (w : Work)
    (hw : alookup db.works wid = some w) (hdm : 0 < w.deadline_minutes) :
    (userHasClaimOnWork db uid wid = true →
      ∃ e, allocate db wid uid now k = (db, Except.error e)) ∧
    (userHasActiveClaim db uid now = true →
      allocate db wid uid now k = (db, Except.error AllocErr.activeTask)) ∧
    (userHasActiveClaim db uid now = false → userHasClaimOnWork db uid wid = false →
      w.remaining_slots ≤ 0 →
      allocate db wid uid now k = (db, Except.error AllocErr.soldOut)) ∧
    (userHasActiveClaim db uid now = false → userHasClaimOnWork db uid wid = false →
      0 < w.remaining_slots → eligibleItems db w.file_batch = [] →
      allocate db wid uid now k = (db, Except.error AllocErr.outOfInventory)) ∧
    (∀ c0 rest, userHasActiveClaim db uid now = false → userHasClaimOnWork db uid wid = false →
      0 < w.remaining_slots → eligibleItems db w.file_batch = c0 :: rest →
      (allocate db wid uid now k).2 = Except.ok db.seq ∧
      allocChoose k c0 rest ∈ eligibleItems db w.file_batch ∧
      (allocChoose k c0 rest).2.batch = w.file_batch ∧
      (allocChoose k c0 rest).2.used_count < (allocChoose k c0 rest).2.reuse_limit ∧
      alookup (allocate db wid uid now k).1.items (allocChoose k c0 rest).1 =
        (alookup db.items (allocChoose k c0 rest).1).map
          (fun it => { it with used_count := it.used_count + 1 }) ∧
      alookup (allocate db wid uid now k).1.works wid =
        some { w with remaining_slots := w.remaining_slots - 1 } ∧
      (allocate db wid uid now k).1.claims = db.claims ++
        [(db.seq, newClaim uid wid (allocChoose k c0 rest).1 (allocChoose k c0 rest).2
            w.price_per_item now (now + w.deadline_minutes))]) := by
  refine ⟨?_, ?_, ?_, ?_, ?_⟩
  · intro hT
    by_cases hA : userHasActiveClaim db uid now = true
    · exact ⟨AllocErr.activeTask, allocate_active_err hA⟩
    · exact ⟨AllocErr.alreadyParticipated,
        allocate_participated_err (Bool.not_eq_true _ ▸ hA) hT⟩
  · exact fun hT => allocate_active_err hT
  · exact fun hF hP hs => allocate_soldout_err hF hP hw hs
  · exact fun hF hP hs he => allocate_outofinventory_err hF hP hw hs he
  · intro c0 rest hF hP hs he
    have hmem : allocChoose k c0 rest ∈ eligibleItems db w.file_batch := by
      rw [he]
      exact allocChoose_mem k c0 rest
    have hpred := List.mem_filter.mp hmem
    have hbatch : (allocChoose k c0 rest).2.batch = w.file_batch := by
      have := hpred.2
      rw [Bool.and_eq_true] at this
      exact beq_iff_eq.mp this.1
    have hlim : (allocChoose k c0 rest).2.used_count < (allocChoose k c0 rest).2.reuse_limit := by
      have := hpred.2
      rw [Bool.and_eq_true] at this
      exact of_decide_eq_true this.2
    have heqa := allocate_success_eq hF hP hw hs he (k := k)
    refine ⟨?_, hmem, hbatch, hlim, ?_, ?_, ?_⟩
    · rw [heqa]
    · rw [heqa]
      show alookup (allocSuccess db wid uid now k w c0 rest).items (allocChoose k c0 rest).1 = _
      rw [allocSuccess_items, alookup_aupdate_self]
    · rw [heqa]
      show alookup (allocSuccess db wid uid now k w c0 rest).works wid = _
      rw [allocSuccess_works, alookup_aupdate_self, hw]
      rfl
    · rw [heqa]
      show (allocSuccess db wid uid now k w c0 rest).claims = _
      rw [allocSuccess_claims, allocExpiry_pos hdm]

def c3it10 : FileItem := { batch := 1, reuse_limit := 1, used_count := 1 }

def c3it11 : FileItem := { batch := 1, reuse_limit := 2, used_count := 1 }

def c3w : Work :=
  { file_batch := 1, price_per_item := 250, deadline_minutes := 60, total_slots := 2,
    remaining_slots := 2 }

def c3db : DB := { works := [(1, c3w)], items := [(10, c3it10), (11, c3it11)], seq := 20 }

/-- Witness for C3: a successful allocation picking the only eligible item. -/
theorem c3_allocate_contract_witness :
    (alookup c3db.works 1 = some c3w ∧ 0 < c3w.deadline_minutes ∧
     userHasActiveClaim c3db 5 100 = false ∧ userHasClaimOnWork c3db 5 1 = false ∧
     0 < c3w.remaining_slots ∧ eligibleItems c3db c3w.file_batch = [(11, c3it11)]) ∧
    ((allocate c3db 1 5 100 3).2 = Except.ok c3db.seq ∧
     allocChoose 3 (11, c3it11) [] ∈ eligibleItems c3db c3w.file_batch ∧
     (allocChoose 3 (11, c3it11) []).2.batch = c3w.file_batch ∧
     (allocChoose 3 (11, c3it11) []).2.used_count < (allocChoose 3 (11, c3it11) []).2.reuse_limit ∧
     alookup (allocate c3db 1 5 100 3).1.items (allocChoose 3 (11, c3it11) []).1 =
       (alookup c3db.items (allocChoose 3 (11, c3it11) []).1).map
         (fun it => { it with used_count := it.used_count + 1 }) ∧
     alookup (allocate c3db 1 5 100 3).1.works 1 =
       some { c3w with remaining_slots := c3w.remaining_slots - 1 } ∧
     (allocate c3db 1 5 100 3).1.claims = c3db.claims ++
       [(c3db.seq, newClaim 5 1 (allocChoose 3 (11, c3it11) []).1 (allocChoose 3 (11, c3it11) []).2
           c3w.price_per_item 100 (100 + c3w.deadline_minutes))]) :=
  ⟨⟨by decide, by decide, by decide, by decide, by decide, by decide⟩,
   (c3_allocate_contract c3db 1 5 100 3 c3w (by decide) (by decide)).2.2.2.2 (11, c3it11) []
     (by decide) (by decide) (by decide) (by decide)⟩

-- ## The expiry sweep: fold characterisation (used by C4 and C10)

def markExpired (c : WorkClaim) : WorkClaim := { c with status := .expired }

def markIfIn (ids : List Nat) (q : Nat × WorkClaim) : Nat × WorkClaim :=
  if q.1 ∈ ids then (q.1, markExpired q.2) else q

theorem expireOne_claims (wid : Nat) (d : DB) (p : Nat × WorkClaim) :
    (expireOne wid d p).claims = aupdate d.claims p.1 markExpired := rfl

theorem sweepFold_claims (wid : Nat) (E : List (Nat × WorkClaim)) :
    ∀ d : DB, (E.foldl (expireOne wid) d).claims =
      E.foldl (fun cl p => aupdate cl p.1 markExpired) d.claims := by
  induction E with
  | nil => intro d; rfl
  | cons p E ih =>
    intro d
    rw [List.foldl_cons, List.foldl_cons, ih (expireOne wid d p), expireOne_claims]

theorem foldl_aupdate_mark (E : List (Nat × WorkClaim)) :
    ∀ cl : List (Nat × WorkClaim),
      E.foldl (fun cl p => aupdate cl p.1 markExpired) cl =
        cl.map (markIfIn (E.map fun p => p.1)) := by
  induction E with
  | nil =>
    intro cl
    rw [List.foldl_nil]
    have hid : markIfIn ([] : List Nat) = id := by
      funext q
      unfold markIfIn
      rw [if_neg (List.not_mem_nil q.1)]
      rfl
    rw [List.map_nil, hid, List.map_id]
  | cons p E ih =>
    intro cl
    rw [List.foldl_cons, ih (aupdate cl p.1 markExpired)]
    show (cl.map fun q => if q.1 = p.1 then (q.1, markExpired q.2) else q).map
        (markIfIn (E.map fun r => r.1)) = _
    rw [List.map_map, List.map_cons]
    have hfun : (markIfIn (E.map fun r => r.1)) ∘
        (fun q => if q.1 = p.1 then (q.1, markExpired q.2) else q) =
        markIfIn (p.1 :: E.map fun r => r.1) := by
      funext q
      by_cases h1 : q.1 = p.1 <;> by_cases h2 : q.1 ∈ E.map fun r => r.1 <;>
        simp [markIfIn, Function.comp, h1, h2, markExpired]
    rw [hfun]

theorem alookup_map_markIfIn (cl : List (Nat × WorkClaim)) (ids : List Nat) (j : Nat) :
    alookup (cl.map (markIfIn ids)) j =
      if j ∈ ids then (alookup cl j).map markExpired else alookup cl j := by
  induction cl with
  | nil =>
    rw [List.map_nil]
    show (none : Option WorkClaim) = if j ∈ ids then Option.map markExpired none else none
    by_cases h : j ∈ ids
    · rw [if_pos h]; rfl
    · rw [if_neg h]
  | cons q rest ih =>
    rw [List.map_cons]
    by_cases hq : q.1 = j
    · by_cases hid : j ∈ ids
      · have : markIfIn ids q = (q.1, markExpired q.2) := by
          unfold markIfIn
          rw [if_pos (hq ▸ hid)]
        rw [this]
        show (if q.1 = j then some (markExpired q.2) else alookup (rest.map (markIfIn ids)) j) = _
        rw [if_pos hq, if_pos hid]
        show some (markExpired q.2) = (if q.1 = j then some q.2 else alookup rest j).map markExpired
        rw [if_pos hq]
        rfl
      · have : markIfIn ids q = q := by
          unfold markIfIn
          rw [if_neg (hq ▸ hid)]
        rw [this]
        show (if q.1 = j then some q.2 else alookup (rest.map (markIfIn ids)) j) = _
        rw [if_pos hq, if_neg hid]
        show some q.2 = if q.1 = j then some q.2 else alookup rest j
        rw [if_pos hq]
    · have hkey : (markIfIn ids q).1 = q.1 := by
        unfold markIfIn
        by_cases h : q.1 ∈ ids
        · rw [if_pos h]
        · rw [if_neg h]
      show (if (markIfIn ids q).1 = j then some (markIfIn ids q).2
          else alookup (rest.map (markIfIn ids)) j) = _
      rw [hkey, if_neg hq, ih]
      by_cases hid : j ∈ ids
      · rw [if_pos hid, if_pos hid]
        show (alookup rest j).map markExpired =
          (if q.1 = j then some q.2 else alookup rest j).map markExpired
        rw [if_neg hq]
      · rw [if_neg hid, if_neg hid]
        show alookup rest j = if q.1 = j then some q.2 else alookup rest j
        rw [if_neg hq]

theorem alookup_of_mem_nodup {α : Type} {l : List (Nat × α)}
    (hnd : (l.map fun p => p.1).Nodup) {p : Nat × α} (hp : p ∈ l) :
    alookup l p.1 = some p.2 := by
  induction l with
  | nil => cases hp
  | cons q rest ih =>
    rw [List.map_cons, List.nodup_cons] at hnd
    rcases List.mem_cons.mp hp with he | hmem
    · rw [he]
      show (if q.1 = q.1 then some q.2 else alookup rest q.1) = some q.2
      rw [if_pos rfl]
    · have hne : ¬ q.1 = p.1 := by
        intro h
        exact hnd.1 (h ▸ List.mem_map.mpr ⟨p, hmem, rfl⟩)
      show (if q.1 = p.1 then some q.2 else alookup rest p.1) = some p.2
      rw [if_neg hne]
      exact ih hnd.2 hmem

theorem expireOne_works (wid : Nat) (d : DB) (p : Nat × WorkClaim) :
    (expireOne wid d p).works =
      aupdate d.works wid fun w => { w with remaining_slots := w.remaining_slots + 1 } := rfl

theorem sweepFold_works (wid : Nat) (E : List (Nat × WorkClaim)) :
    ∀ d : DB, alookup (E.foldl (expireOne wid) d).works wid =
      (alookup d.works wid).map
        fun ww => { ww with remaining_slots := ww.remaining_slots + (E.length : Int) } := by
  induction E with
  | nil =>
    intro d
    rw [List.foldl_nil]
    cases h : alookup d.works wid
    · rfl
    · rename_i ww
      cases ww with
      | mk fb pp dm ts rs =>
        show some (Work.mk fb pp dm ts rs) = some (Work.mk fb pp dm ts (rs + ((0 : Nat) : Int)))
        norm_num
  | cons p E ih =>
    intro d
    rw [List.foldl_cons, ih (expireOne wid d p), expireOne_works, alookup_aupdate_self]
    cases h : alookup d.works wid
    · rfl
    · rename_i ww
      cases ww with
      | mk fb pp dm ts rs =>
        show some (Work.mk fb pp dm ts (rs + 1 + (E.length : Int))) =
          some (Work.mk fb pp dm ts (rs + (((p :: E).length : Nat) : Int)))
        have harith : rs + 1 + (E.length : Int) = rs + (((p :: E).length : Nat) : Int) := by
          rw [List.length_cons]
          push_cast
          ring
        rw [harith]

theorem sweepFold_items (wid : Nat) (E : List (Nat × WorkClaim)) :
    ∀ (d : DB) (i : Nat), alookup (E.foldl (expireOne wid) d).items i =
      (alookup d.items i).map fun it =>
        { it with used_count :=
            it.used_count - ((E.countP fun p => p.2.file_item == some i : Nat) : Int) } := by
  induction E with
  | nil =>
    intro d i
    rw [List.foldl_nil]
    cases h : alookup d.items i
    · rfl
    · rename_i it
      cases it with
      | mk b t de tg rl uc =>
        show some (FileItem.mk b t de tg rl uc) =
          some (FileItem.mk b t de tg rl (uc - ((0 : Nat) : Int)))
        norm_num
  | cons p E ih =>
    intro d i
    rw [List.foldl_cons, ih (expireOne wid d p)]
    cases hfi : p.2.file_item with
    | none =>
      have hit : (expireOne wid d p).items = d.items := by
        show (match p.2.file_item with
          | some fid => aupdate d.items fid fun it => { it with used_count := it.used_count - 1 }
          | none => d.items) = d.items
        rw [hfi]
      have hcnt : (List.countP (fun p => p.2.file_item == some i) (p :: E)) =
          List.countP (fun p => p.2.file_item == some i) E := by
        simp [List.countP_cons, hfi]
      rw [hit, hcnt]
    | some fid =>
      have hit : (expireOne wid d p).items =
          aupdate d.items fid fun it => { it with used_count := it.used_count - 1 } := by
        show (match p.2.file_item with
          | some fid => aupdate d.items fid fun it => { it with used_count := it.used_count - 1 }
          | none => d.items) = _
        rw [hfi]
      rw [hit]
      by_cases hif : i = fid
      · subst hif
        rw [alookup_aupdate_self]
        have hcnt : (List.countP (fun p => p.2.file_item == some i) (p :: E)) =
            List.countP (fun p => p.2.file_item == some i) E + 1 := by
          simp [List.countP_cons, hfi]
        rw [hcnt]
        cases h : alookup d.items i
        · rfl
        · rename_i it
          cases it with
          | mk b t de tg rl uc =>
            show some (FileItem.mk b t de tg rl
                (uc - 1 - ((E.countP fun p => p.2.file_item == some i : Nat) : Int))) =
              some (FileItem.mk b t de tg rl
                (uc - (((E.countP fun p => p.2.file_item == some i) + 1 : Nat) : Int)))
            have harith : uc - 1 - ((E.countP fun p => p.2.file_item == some i : Nat) : Int) =
                uc - (((E.countP fun p => p.2.file_item == some i) + 1 : Nat) : Int) := by
              push_cast
              ring
            rw [harith]
      · rw [alookup_aupdate_ne _ _ hif]
        have hcnt : (List.countP (fun p => p.2.file_item == some i) (p :: E)) =
            List.countP (fun p => p.2.file_item == some i) E := by
          have hpred : (p.2.file_item == some i) = false := by
            rw [hfi]
            exact beq_eq_false_iff_ne.mpr (fun h => hif (Option.some_injective _ h).symm)
          simp [List.countP_cons, hpred]
        rw [hcnt]

theorem sweepExpired_eq {db : DB} {wid : Nat} {w : Work}
    (hw : alookup db.works wid = some w) (now : Nat) :
    sweepExpired db wid now =
      ((expiringClaims db wid now).foldl (expireOne wid) db,
       some (expiringClaims db wid now).length) := by
  unfold sweepExpired
  split
  · rename_i heq
    rw [hw] at heq
    exact Option.noConfusion heq
  · rfl

-- ## Claim C1

/-- C1: after any sequence of core operations (claim approval, milestone
approval/rejection, withdrawal request/approval/rejection, and also
allocation, submission, the sweep and the metrics refresh) from a state
satisfying the ledger invariant, every wallet's cached balance equals the
signed sum of its WalletTransaction rows; each step preserves the equality
precisely because apply_transaction's append-and-update is the only way any
operation touches a balance. -/
theorem c1_balance_is_txn_sum (db : DB) (ops : List Op) (h : walletInv db) :
    walletInv (run db ops) :=
  run_walletInv db ops h

def c1claim : WorkClaim :=
  { user := 7, work := 1, payout_amount := 250, status := ClaimStatus.submitted }

def c1db : DB :=
  { works := [(1, { file_batch := 1, price_per_item := 250, total_slots := 3, remaining_slots := 2 })],
    claims := [(1, c1claim)],
    wallets := [(7, 0)],
    min_withdraw := some 100,
    seq := 10 }

def c1ops : List Op :=
  [Op.approveClaimOp 1, Op.requestWithdrawalOp 7 200 "u@bank", Op.rejectWithdrawalOp 11 "no" 5,
   Op.approveClaimOp 1, Op.requestWithdrawalOp 7 50 "u@bank", Op.sweepOp 1 99]

/-- Witness for C1 over a concrete operation sequence mixing credits, holds,
reversals, idempotent re-approval and a sweep. -/
theorem c1_balance_is_txn_sum_witness :
    walletInv c1db ∧ walletInv (run c1db c1ops) :=
  ⟨by decide, c1_balance_is_txn_sum c1db c1ops (by decide)⟩

-- ## Claim C4

theorem expiringClaims_after_sweep (db : DB) (wid now : Nat) {w : Work}
    (hw : alookup db.works wid = some w) :
    expiringClaims (sweepExpired db wid now).1 wid now = [] := by
  rw [sweepExpired_eq hw now]
  show ((expiringClaims db wid now).foldl (expireOne wid) db).claims.filter
      (fun p => p.2.work == wid && p.2.status == ClaimStatus.claimed && optLe p.2.expires_at now) = []
  rw [sweepFold_claims, foldl_aupdate_mark]
  apply List.filter_eq_nil_iff.mpr
  intro q2 hq2
  rcases List.mem_map.mp hq2 with ⟨q, hq, hmap⟩
  by_cases hin : q.1 ∈ (expiringClaims db wid now).map fun p => p.1
  · intro hpred
    rw [← hmap] at hpred
    simp [markIfIn, hin, markExpired] at hpred
  · intro hpred
    rw [← hmap] at hpred
    have hqq : markIfIn ((expiringClaims db wid now).map fun p => p.1) q = q := by
      unfold markIfIn
      rw [if_neg hin]
    rw [hqq] at hpred
    have hmem : q ∈ expiringClaims db wid now := List.mem_filter.mpr ⟨hq, hpred⟩
    exact hin (List.mem_map.mpr ⟨q, hmem, rfl⟩)

/-- C4: the expiry sweep.  With the offer present (and claim primary keys
distinct, as a database guarantees), the sweep reports the number of overdue
claimed claims; every such claim is flipped to expired, every inventory
item's used_count drops by the number of expiring claims that reference it,
and the offer's remaining_slots grows by the reported count.  Re-running the
sweep immediately afterwards changes nothing and reports 0. -/
theorem c4_sweep_contract (db : DB) (wid now : Nat) (w : Work)
    (hw : alookup db.works wid = some w)
    (hnodup : (db.claims.map fun p => p.1).Nodup) :
    (sweepExpired db wid now).2 = some (expiringClaims db wid now).length ∧
    (∀ p ∈ expiringClaims db wid now,
      alookup (sweepExpired db wid now).1.claims p.1 =
        some { p.2 with status := ClaimStatus.expired }) ∧
    (∀ i it, alookup db.items i = some it →
      alookup (sweepExpired db wid now).1.items i =
        some { it with used_count := it.used_count -
          (((expiringClaims db wid now).countP fun p => p.2.file_item == some i : Nat) : Int) }) ∧
    alookup (sweepExpired db wid now).1.works wid =
      some { w with remaining_slots :=
        w.remaining_slots + ((expiringClaims db wid now).length : Int) } ∧
    sweepExpired (sweepExpired db wid now).1 wid now = ((sweepExpired db wid now).1, some 0) := by
  have heq := sweepExpired_eq hw now
  have hworks2 : alookup (sweepExpired db wid now).1.works wid =
      some { w with remaining_slots :=
        w.remaining_slots + ((expiringClaims db wid now).length : Int) } := by
    rw [heq]
    show alookup ((expiringClaims db wid now).foldl (expireOne wid) db).works wid = _
    rw [sweepFold_works, hw]
    rfl
  refine ⟨?_, ?_, ?_, hworks2, ?_⟩
  · rw [heq]
  · intro p hp
    rw [heq]
    show alookup ((expiringClaims db wid now).foldl (expireOne wid) db).claims p.1 = _
    rw [sweepFold_claims, foldl_aupdate_mark, alookup_map_markIfIn,
      if_pos (List.mem_map.mpr ⟨p, hp, rfl⟩),
      alookup_of_mem_nodup hnodup (List.mem_filter.mp hp).1]
    rfl
  · intro i it hit
    rw [heq]
    show alookup ((expiringClaims db wid now).foldl (expireOne wid) db).items i = _
    rw [sweepFold_items, hit]
    rfl
  · have hE : expiringClaims (sweepExpired db wid now).1 wid now = [] :=
      expiringClaims_after_sweep db wid now hw
    rw [sweepExpired_eq hworks2 now, hE]
    rfl

def c4cl1 : WorkClaim :=
  { user := 5, work := 1, file_item := some 10, status := ClaimStatus.claimed,
    expires_at := some 50 }

def c4cl2 : WorkClaim :=
  { user := 6, work := 1, file_item := some 10, status := ClaimStatus.claimed,
    expires_at := some 200 }

def c4w : Work := { file_batch := 1, total_slots := 2, remaining_slots := 0 }

def c4db : DB :=
  { works := [(1, c4w)],
    items := [(10, { batch := 1, reuse_limit := 2, used_count := 2 })],
    claims := [(1, c4cl1), (2, c4cl2)] }

/-- Witness for C4: at time 100 only claim 1 (deadline 50) expires; claim 2
(deadline 200) survives, the item count and slot count revert by one, and a
second sweep is a no-op reporting 0. -/
theorem c4_sweep_contract_witness :
    (alookup c4db.works 1 = some c4w ∧ (c4db.claims.map fun p => p.1).Nodup) ∧
    ((sweepExpired c4db 1 100).2 = some (expiringClaims c4db 1 100).length ∧
     (∀ p ∈ expiringClaims c4db 1 100,
       alookup (sweepExpired c4db 1 100).1.claims p.1 =
         some { p.2 with status := ClaimStatus.expired }) ∧
     (∀ i it, alookup c4db.items i = some it →
       alookup (sweepExpired c4db 1 100).1.items i =
         some { it with used_count := it.used_count -
           (((expiringClaims c4db 1 100).countP fun p => p.2.file_item == some i : Nat) : Int) }) ∧
     alookup (sweepExpired c4db 1 100).1.works 1 =
       some { c4w with remaining_slots :=
         c4w.remaining_slots + ((expiringClaims c4db 1 100).length : Int) } ∧
     sweepExpired (sweepExpired c4db 1 100).1 1 100 = ((sweepExpired c4db 1 100).1, some 0)) :=
  ⟨⟨by decide, by decide⟩, c4_sweep_contract c4db 1 100 c4w (by decide) (by decide)⟩

-- ## Claim C10

theorem submit_success {db : DB} {cid uid now : Nat} {u : Url} {c : WorkClaim}
    (h : alookup db.claims cid = some c) (hraw : ¬ strStrip u.raw = "")
    (hyt : isYoutubeUrl u = true) (huser : c.user = uid)
    (hst : c.status = ClaimStatus.claimed ∨ c.status = ClaimStatus.submitted) :
    submit db cid uid u now =
      ({ db with claims := aupdate db.claims cid (submitUpdate (strStrip u.raw) now) },
       Except.ok ()) := by
  unfold submit
  rw [if_neg hraw, if_neg (fun hC => hC hyt)]
  split
  · rename_i heq
    rw [h] at heq
    exact Option.noConfusion heq
  · rename_i c2 heq
    rw [h] at heq
    injection heq with he
    subst he
    rw [if_neg (fun hne => hne huser),
      if_neg (fun hand => match hst with | .inl h1 => hand.1 h1 | .inr h2 => hand.2 h2)]

/-- C10: submit does not consult expires_at.  A claim still in status claimed
whose deadline has already passed (expires_at = t ≤ now) is submitted
successfully with a valid YouTube URL: status becomes submitted and
submitted_at is set — and from then on the expiry sweep can never touch the
claim: after any sweep of any offer at any time its row is unchanged. -/
theorem c10_submit_ignores_deadline (db : DB) (cid uid now t : Nat) (u : Url) (c : WorkClaim)
    (h : alookup db.claims cid = some c) (huser : c.user = uid)
    (hst : c.status = ClaimStatus.claimed)
    (hexp : c.expires_at = some t) (ht : t ≤ now)
    (hraw : ¬ strStrip u.raw = "") (hyt : isYoutubeUrl u = true) :
    (submit db cid uid u now).2 = Except.ok () ∧
    alookup (submit db cid uid u now).1.claims cid =
      some { c with youtube_url := strStrip u.raw, submitted_at := some now,
                    status := ClaimStatus.submitted } ∧
    (∀ wid now2,
      alookup (sweepExpired (submit db cid uid u now).1 wid now2).1.claims cid =
        some { c with youtube_url := strStrip u.raw, submitted_at := some now,
                      status := ClaimStatus.submitted }) := by
  have hsub := @submit_success db cid uid now u c h hraw hyt huser (Or.inl hst)
  have hclaims : (submit db cid uid u now).1.claims =
      aupdate db.claims cid (submitUpdate (strStrip u.raw) now) := by
    rw [hsub]
  have hpart2 : alookup (submit db cid uid u now).1.claims cid =
      some { c with youtube_url := strStrip u.raw, submitted_at := some now,
                    status := ClaimStatus.submitted } := by
    rw [hclaims, alookup_aupdate_self, h]
    rfl
  refine ⟨by rw [hsub], hpart2, ?_⟩
  intro wid now2
  have hnotin : ¬ cid ∈ ((expiringClaims (submit db cid uid u now).1 wid now2).map fun p => p.1) := by
    intro hmem
    rcases List.mem_map.mp hmem with ⟨q, hqE, hqkey⟩
    have hq := List.mem_filter.mp hqE
    have hqc : q ∈ (submit db cid uid u now).1.claims := hq.1
    rw [hclaims] at hqc
    unfold aupdate at hqc
    rcases List.mem_map.mp hqc with ⟨r, hr, hgr⟩
    have hq2 := hq.2
    rw [Bool.and_eq_true, Bool.and_eq_true] at hq2
    rcases hq2 with ⟨⟨hp1, hp2⟩, hp3⟩
    by_cases hrc : r.1 = cid
    · have hqs : q.2.status = ClaimStatus.submitted := by
        rw [← hgr]
        simp [hrc, submitUpdate]
      rw [hqs] at hp2
      simp at hp2
    · have hqr : q.1 = r.1 := by
        rw [← hgr]
        simp [hrc]
      rw [hqkey] at hqr
      exact hrc hqr.symm
  unfold sweepExpired
  split
  · exact hpart2
  · show alookup ((expiringClaims (submit db cid uid u now).1 wid now2).foldl
        (expireOne wid) (submit db cid uid u now).1).claims cid = _
    rw [sweepFold_claims, foldl_aupdate_mark, alookup_map_markIfIn, if_neg hnotin]
    exact hpart2

def c10claim : WorkClaim :=
  { user := 5, work := 1, file_item := some 10, status := ClaimStatus.claimed,
    expires_at := some 40 }

def c10db : DB :=
  { works := [(1, { file_batch := 1, remaining_slots := 1 })], claims := [(3, c10claim)] }

def c10url : Url := { raw := "https://www.youtube.com/watch?v=abc", hostname := some "www.youtube.com" }

/-- Witness for C10: an overdue claimed claim (deadline 40, now 100) is
submitted successfully and the sweep at time 100 leaves it submitted. -/
theorem c10_submit_ignores_deadline_witness :
    (alookup c10db.claims 3 = some c10claim ∧ c10claim.user = 5 ∧
     c10claim.status = ClaimStatus.claimed ∧ c10claim.expires_at = some 40 ∧ 40 ≤ 100 ∧
     ¬ strStrip c10url.raw = "" ∧ isYoutubeUrl c10url = true) ∧
    ((submit c10db 3 5 c10url 100).2 = Except.ok () ∧
     alookup (submit c10db 3 5 c10url 100).1.claims 3 =
       some { c10claim with youtube_url := strStrip c10url.raw, submitted_at := some 100,
                            status := ClaimStatus.submitted } ∧
     (∀ wid now2,
       alookup (sweepExpired (submit c10db 3 5 c10url 100).1 wid now2).1.claims 3 =
         some { c10claim with youtube_url := strStrip c10url.raw, submitted_at := some 100,
                              status := ClaimStatus.submitted })) :=
  ⟨⟨by decide, by decide, by decide, by decide, by decide, by decide, by decide⟩,
   c10_submit_ignores_deadline c10db 3 5 100 40 c10url c10claim
     (by decide) (by decide) (by decide) (by decide) (by decide) (by decide) (by decide)⟩

-- ## Claim C5: the (claim, rule) uniqueness invariant

theorem mpUnique_congr {db db2 : DB} (h : db2.payouts = db.payouts) (hm : mpUnique db) :
    mpUnique db2 := by
  unfold mpUnique at hm ⊢
  rw [h]
  exact hm

theorem creditClaimTxn_payouts (d : DB) (u cid : Nat) (a : Int) :
    (creditClaimTxn d u cid a).payouts = d.payouts := by
  unfold creditClaimTxn
  split <;> rfl

theorem allocate_payouts (db : DB) (w u n k : Nat) : (allocate db w u n k).1.payouts = db.payouts := by
  unfold allocate
  repeat' split
  all_goals rfl

theorem submit_payouts (db : DB) (cid u : Nat) (url : Url) (n : Nat) :
    (submit db cid u url n).1.payouts = db.payouts := by
  unfold submit
  repeat' split
  all_goals rfl

theorem sweepExpired_payouts (db : DB) (w n : Nat) : (sweepExpired db w n).1.payouts = db.payouts := by
  unfold sweepExpired
  split
  · rfl
  · exact foldl_pres (P := fun d2 => d2.payouts = db.payouts) (expireOne w)
      (fun d2 p h2 => h2) _ db rfl

theorem approveClaim_payouts (db : DB) (cid : Nat) : (approveClaim db cid).1.payouts = db.payouts := by
  unfold approveClaim
  split
  · rfl
  · split
    · rfl
    · show (creditClaimTxn _ _ _ _).payouts = db.payouts
      rw [creditClaimTxn_payouts, getOrCreateWallet_payouts]
      rfl

theorem rejectClaim_payouts (db : DB) (cid : Nat) : (rejectClaim db cid).1.payouts = db.payouts := by
  unfold rejectClaim
  repeat' split
  all_goals rfl

theorem requestWithdrawal_payouts (db : DB) (u : Nat) (a : Int) (v : String) :
    (requestWithdrawal db u a v).1.payouts = db.payouts := by
  unfold requestWithdrawal
  split
  · rfl
  · split
    · exact getOrCreateWallet_payouts db u
    · split
      · exact getOrCreateWallet_payouts db u
      · exact getOrCreateWallet_payouts db u

theorem approveWithdrawal_payouts (db : DB) (pk n : Nat) :
    (approveWithdrawal db pk n).1.payouts = db.payouts := by
  unfold approveWithdrawal
  repeat' split
  all_goals rfl

theorem rejectWithdrawal_payouts (db : DB) (pk : Nat) (note : String) (n : Nat) :
    (rejectWithdrawal db pk note n).1.payouts = db.payouts := by
  unfold rejectWithdrawal
  repeat' split
  all_goals rfl

theorem mpUnique_aupdate {db : DB} (pk : Nat) (f : MilestonePayout → MilestonePayout)
    (hf : ∀ m, (f m).claim = m.claim ∧ (f m).rule = m.rule) (h : mpUnique db)
    {db2 : DB} (h2 : db2.payouts = aupdate db.payouts pk f) : mpUnique db2 := by
  unfold mpUnique at h ⊢
  rw [h2]
  intro p hp
  unfold aupdate at hp ⊢
  rcases List.mem_map.mp hp with ⟨q, hq, hpq⟩
  have hkeys : p.2.claim = q.2.claim ∧ p.2.rule = q.2.rule := by
    rw [← hpq]
    by_cases hqk : q.1 = pk
    · simp [hqk, (hf q.2).1, (hf q.2).2]
    · simp [hqk]
  rw [List.countP_map]
  have hcnt : (List.countP ((fun r => r.2.claim == p.2.claim && r.2.rule == p.2.rule) ∘
      fun r => if r.1 = pk then (r.1, f r.2) else r) db.payouts) =
      List.countP (fun r => r.2.claim == q.2.claim && r.2.rule == q.2.rule) db.payouts := by
    apply List.countP_congr
    intro r hr
    have hb : ((if r.1 = pk then (r.1, f r.2) else r).2.claim == p.2.claim &&
        (if r.1 = pk then (r.1, f r.2) else r).2.rule == p.2.rule) =
        (r.2.claim == q.2.claim && r.2.rule == q.2.rule) := by
      by_cases hrk : r.1 = pk
      · simp [hrk, (hf r.2).1, (hf r.2).2, hkeys.1, hkeys.2]
      · simp [hrk, hkeys.1, hkeys.2]
    show ((if r.1 = pk then (r.1, f r.2) else r).2.claim == p.2.claim &&
        (if r.1 = pk then (r.1, f r.2) else r).2.rule == p.2.rule) = true ↔
      (r.2.claim == q.2.claim && r.2.rule == q.2.rule) = true
    rw [hb]
  rw [hcnt]
  exact h q hq

theorem milestoneSetApproved_mpUnique {db : DB} (pk now tid : Nat) {d2 : DB}
    (hp : d2.payouts = db.payouts) (h : mpUnique db) :
    mpUnique (milestoneSetApproved pk now tid d2) := by
  refine mpUnique_aupdate pk
    (fun m => { m with status := .approved, decided_at := some now, credited_txn := some tid })
    (fun m => ⟨rfl, rfl⟩) h ?_
  unfold milestoneSetApproved
  rw [hp]

theorem approveMilestone_mpUnique (db : DB) (pk n : Nat) (h : mpUnique db) :
    mpUnique (approveMilestone db pk n).1 := by
  unfold approveMilestone
  split
  · exact h
  · split
    · exact h
    · split
      · exact h
      · rename_i c heqc
        split
        · exact milestoneSetApproved_mpUnique pk n _ (getOrCreateWallet_payouts db c.user) h
        · exact milestoneSetApproved_mpUnique pk n _
            (by rw [show (apply_transaction (getOrCreateWallet db c.user) c.user
                .milestone_bonus _ (some _) _).1.payouts
                = (getOrCreateWallet db c.user).payouts from rfl, getOrCreateWallet_payouts]) h

theorem rejectMilestone_mpUnique (db : DB) (pk n : Nat) (h : mpUnique db) :
    mpUnique (rejectMilestone db pk n).1 := by
  unfold rejectMilestone
  split
  · exact h
  · split
    · exact h
    · exact mpUnique_aupdate pk
        (fun m => { m with status := .rejected, decided_at := some n })
        (fun m => ⟨rfl, rfl⟩) h rfl

theorem createPayoutIfAbsent_mpUnique (cid v lk : Nat) (d : DB) (rp : Nat × MilestoneRule)
    (h : mpUnique d) : mpUnique (createPayoutIfAbsent cid v lk d rp) := by
  unfold createPayoutIfAbsent
  split
  · exact h
  · rename_i hany
    have hanyf : ∀ r ∈ d.payouts, ¬ (r.2.claim == cid && r.2.rule == rp.1) = true := by
      intro r hr hpred
      exact hany (List.any_eq_true.mpr ⟨r, hr, hpred⟩)
    intro p hp
    have hp2 : p ∈ d.payouts ++ [(d.seq, newPayout cid v lk rp)] := hp
    show (List.countP (fun q => q.2.claim == p.2.claim && q.2.rule == p.2.rule)
      (d.payouts ++ [(d.seq, newPayout cid v lk rp)])) ≤ 1
    rw [List.countP_append]
    rcases List.mem_append.mp hp2 with hmem | hnew
    · have hold := h p hmem
      have hpredf : ((d.seq, newPayout cid v lk rp).2.claim == p.2.claim &&
          (d.seq, newPayout cid v lk rp).2.rule == p.2.rule) = false := by
        by_cases hm : (((d.seq, newPayout cid v lk rp).2.claim == p.2.claim &&
            (d.seq, newPayout cid v lk rp).2.rule == p.2.rule) = true)
        · exfalso
          rw [Bool.and_eq_true] at hm
          have h1 : cid = p.2.claim := beq_iff_eq.mp hm.1
          have h2 : rp.1 = p.2.rule := beq_iff_eq.mp hm.2
          refine hanyf p hmem ?_
          rw [← h1, ← h2]
          simp
        · exact Bool.eq_false_iff.mpr hm
      have hsing : (List.countP (fun q => q.2.claim == p.2.claim && q.2.rule == p.2.rule)
          [(d.seq, newPayout cid v lk rp)]) = 0 := by
        simp [List.countP_cons, hpredf]
      rw [hsing]
      omega
    · have hpeq : p = (d.seq, newPayout cid v lk rp) := by simpa using hnew
      have hzero : (List.countP (fun q => q.2.claim == p.2.claim && q.2.rule == p.2.rule)
          d.payouts) = 0 := by
        rw [List.countP_eq_zero]
        intro r hr
        rw [hpeq]
        exact hanyf r hr
      have hone : (List.countP (fun q => q.2.claim == p.2.claim && q.2.rule == p.2.rule)
          [(d.seq, newPayout cid v lk rp)]) = 1 := by
        rw [hpeq]
        simp [List.countP_cons]
      rw [hzero, hone]

theorem refreshOne_mpUnique (cd : Nat) (stats : List (String × Nat × Nat)) (n : Nat)
    (d : DB) (cid : Nat) (h : mpUnique d) : mpUnique (refreshOne cd stats n d cid) := by
  unfold refreshOne
  split
  · exact h
  · split
    · exact h
    · split
      · exact h
      · split
        · exact foldl_pres (P := mpUnique) _
            (fun d2 rp h2 => createPayoutIfAbsent_mpUnique _ _ _ d2 rp h2) _ _
            (mpUnique_congr rfl h)
        · exact mpUnique_congr rfl h

theorem refreshMetrics_mpUnique (db : DB) (stats : List (String × Nat × Nat)) (n cd : Nat)
    (h : mpUnique db) : mpUnique (refreshMetrics db stats n cd).1 := by
  unfold refreshMetrics
  exact foldl_pres (P := mpUnique) _
    (fun d c h2 => refreshOne_mpUnique cd stats n d c h2) _ db h

theorem step_mpUnique (db : DB) (op : Op) (h : mpUnique db) : mpUnique (step db op) := by
  cases op with
  | allocateOp w u n k => exact mpUnique_congr (allocate_payouts db w u n k) h
  | submitOp c u url n => exact mpUnique_congr (submit_payouts db c u url n) h
  | sweepOp w n => exact mpUnique_congr (sweepExpired_payouts db w n) h
  | approveClaimOp c => exact mpUnique_congr (approveClaim_payouts db c) h
  | rejectClaimOp c => exact mpUnique_congr (rejectClaim_payouts db c) h
  | approveMilestoneOp p n => exact approveMilestone_mpUnique db p n h
  | rejectMilestoneOp p n => exact rejectMilestone_mpUnique db p n h
  | requestWithdrawalOp u a v => exact mpUnique_congr (requestWithdrawal_payouts db u a v) h
  | approveWithdrawalOp p n => exact mpUnique_congr (approveWithdrawal_payouts db p n) h
  | rejectWithdrawalOp p note n => exact mpUnique_congr (rejectWithdrawal_payouts db p note n) h
  | refreshMetricsOp s n cd => exact refreshMetrics_mpUnique db s n cd h

theorem run_mpUnique (db : DB) (ops : List Op) (h : mpUnique db) : mpUnique (run db ops) :=
  foldl_pres step (fun d op h2 => step_mpUnique d op h2) ops db h

-- ## Claim C5: provenance of created MilestonePayout rows

/-- The claim row is review-approved and carries an external video reference. -/
def claimOKl (cl : List (Nat × WorkClaim)) (cid : Nat) : Prop :=
  ∃ c, alookup cl cid = some c ∧ c.review_status = ReviewStatus.approved ∧
    (c.youtube_video_id ≠ "" ∨ c.youtube_url ≠ "")

/-- Every payout row either predates the refresh (is in `P0`) or was created
pending_review for an approved claim with a video reference. -/
def payoutOrigin (P0 : List (Nat × MilestonePayout)) (db : DB) : Prop :=
  ∀ q ∈ db.payouts, q ∈ P0 ∨
    (q.2.status = MPStatus.pending_review ∧ claimOKl db.claims q.2.claim)

theorem claimOKl_aupdate_refresh (cl : List (Nat × WorkClaim)) (cid2 x n cd v lk : Nat)
    (h : claimOKl cl x) :
    claimOKl (aupdate cl cid2 (refreshClaimRow n cd v lk)) x := by
  rcases h with ⟨c, hc, hr, hv⟩
  by_cases hx : x = cid2
  · subst hx
    refine ⟨refreshClaimRow n cd v lk c, ?_, hr, hv⟩
    rw [alookup_aupdate_self, hc]
    rfl
  · refine ⟨c, ?_, hr, hv⟩
    rw [alookup_aupdate_ne _ _ hx]
    exact hc

theorem createPayoutIfAbsent_claims (cid v lk : Nat) (d : DB) (rp : Nat × MilestoneRule) :
    (createPayoutIfAbsent cid v lk d rp).claims = d.claims := by
  unfold createPayoutIfAbsent
  split <;> rfl

theorem createPayoutIfAbsent_origin (P0 : List (Nat × MilestonePayout)) (cid v lk : Nat)
    (d : DB) (rp : Nat × MilestoneRule) (hok : claimOKl d.claims cid)
    (h : payoutOrigin P0 d) : payoutOrigin P0 (createPayoutIfAbsent cid v lk d rp) := by
  unfold createPayoutIfAbsent
  split
  · exact h
  · intro q hq
    rcases List.mem_append.mp hq with hmem | hnew
    · exact h q hmem
    · have hqeq : q = (d.seq, newPayout cid v lk rp) := by simpa using hnew
      rw [hqeq]
      exact Or.inr ⟨rfl, hok⟩

theorem payoutFold_origin (P0 : List (Nat × MilestonePayout)) (cid v lk : Nat)
    (C : List (Nat × WorkClaim)) (hok : claimOKl C cid) :
    ∀ (rules : List (Nat × MilestoneRule)) (d : DB), d.claims = C → payoutOrigin P0 d →
      payoutOrigin P0 (rules.foldl (createPayoutIfAbsent cid v lk) d) := by
  intro rules
  induction rules with
  | nil => exact fun d hc h => h
  | cons rp rules ih =>
    intro d hc h
    have hstep : payoutOrigin P0 (createPayoutIfAbsent cid v lk d rp) :=
      createPayoutIfAbsent_origin P0 cid v lk d rp (by rw [hc]; exact hok) h
    have hc2 : (createPayoutIfAbsent cid v lk d rp).claims = C := by
      rw [createPayoutIfAbsent_claims, hc]
    exact ih _ hc2 hstep

theorem payoutOrigin_updateAndLog (P0 : List (Nat × MilestonePayout)) (d : DB)
    (cid n cd v lk : Nat) (h : payoutOrigin P0 d) :
    payoutOrigin P0 (refreshUpdateAndLog d cid n cd v lk) := by
  intro q hq
  rcases h q hq with hL | ⟨hs, hok⟩
  · exact Or.inl hL
  · exact Or.inr ⟨hs, claimOKl_aupdate_refresh d.claims cid q.2.claim n cd v lk hok⟩

theorem refreshOne_origin (P0 : List (Nat × MilestonePayout)) (cd : Nat)
    (stats : List (String × Nat × Nat)) (n : Nat) (d : DB) (cid : Nat)
    (h : payoutOrigin P0 d) : payoutOrigin P0 (refreshOne cd stats n d cid) := by
  unfold refreshOne
  split
  · exact h
  · rename_i claim heq
    split
    · exact h
    · split
      · exact h
      · rename_i s hs
        split
        · rename_i hcond
          have hokcid : claimOKl (refreshUpdateAndLog d cid n cd s.2.1 s.2.2).claims cid := by
            show claimOKl (aupdate d.claims cid (refreshClaimRow n cd s.2.1 s.2.2)) cid
            refine ⟨refreshClaimRow n cd s.2.1 s.2.2 claim, ?_, hcond.1, hcond.2⟩
            rw [alookup_aupdate_self, heq]
            rfl
          exact payoutFold_origin P0 cid s.2.1 s.2.2 _ hokcid _ _ rfl
            (payoutOrigin_updateAndLog P0 d cid n cd s.2.1 s.2.2 h)
        · exact payoutOrigin_updateAndLog P0 d cid n cd s.2.1 s.2.2 h

theorem refreshMetrics_origin (db : DB) (stats : List (String × Nat × Nat)) (n cd : Nat) :
    payoutOrigin db.payouts (refreshMetrics db stats n cd).1 := by
  unfold refreshMetrics
  exact foldl_pres (P := payoutOrigin db.payouts) _
    (fun d c h2 => refreshOne_origin db.payouts cd stats n d c h2) _ db
    (fun q hq => Or.inl hq)

/-- C5: for every (claim, rule) pair at most one MilestonePayout row ever
exists, no matter which and how many core operations run — in particular no
matter how often refreshMetrics observes the threshold crossed — and every
payout row a refresh adds is created with status pending_review and only for
a claim whose review_status is approved and that carries an external video
reference. -/
theorem c5_milestone_payout_unique (db : DB) (ops : List Op)
    (stats : List (String × Nat × Nat)) (now cooldown : Nat) (h : mpUnique db) :
    mpUnique (run db ops) ∧
    (∀ q ∈ (refreshMetrics db stats now cooldown).1.payouts,
      q ∈ db.payouts ∨
        (q.2.status = MPStatus.pending_review ∧
         ∃ c, alookup (refreshMetrics db stats now cooldown).1.claims q.2.claim = some c ∧
           c.review_status = ReviewStatus.approved ∧
           (c.youtube_video_id ≠ "" ∨ c.youtube_url ≠ ""))) :=
  ⟨run_mpUnique db ops h, refreshMetrics_origin db stats now cooldown⟩

def c5claim : WorkClaim :=
  { user := 7, work := 1, youtube_video_id := "vid1", status := ClaimStatus.submitted,
    review_status := ReviewStatus.approved }

def c5db : DB :=
  { claims := [(1, c5claim)],
    rules := [(5, { active := true, threshold_views := 1000, payout_amount := 50 })],
    seq := 30 }

def c5stats : List (String × Nat × Nat) := [("vid1", 1500, 10)]

def c5ops : List Op :=
  [Op.refreshMetricsOp c5stats 100 0, Op.refreshMetricsOp c5stats 100 0]

/-- Witness for C5: the same crossed threshold is observed by two refresh
cycles (cooldown 0, so the claim is due again) and still only one payout row
exists for the (claim, rule) pair. -/
theorem c5_milestone_payout_unique_witness :
    mpUnique c5db ∧
    (mpUnique (run c5db c5ops) ∧
     (∀ q ∈ (refreshMetrics c5db c5stats 100 0).1.payouts,
       q ∈ c5db.payouts ∨
         (q.2.status = MPStatus.pending_review ∧
          ∃ c, alookup (refreshMetrics c5db c5stats 100 0).1.claims q.2.claim = some c ∧
            c.review_status = ReviewStatus.approved ∧
            (c.youtube_video_id ≠ "" ∨ c.youtube_url ≠ "")))) :=
  ⟨by decide, c5_milestone_payout_unique c5db c5ops c5stats 100 0 (by decide)⟩

/-- C2 counterexample: claim 1 has payout_amount 0 while its offer prices the
item at 500; the spec's rule resolves the credit to 500, but approval
appends a task_credit of amount 0 — the code never falls back to
price_per_item and appends a transaction even for a zero resolved amount. -/
theorem c2_counterexample :
    alookup c2db.claims 1 = some c2claim ∧
    specResolvedAmount c2db c2claim = 500 ∧
    ¬ specCreditRule c2db 1 c2claim ∧
    taskCreditsFor (approveClaim c2db 1).1.txns 7 1 = [0] := by
  decide

/-- Witness for the amended C2 theorem: two consecutive approvals of a
zero-payout claim append exactly one task_credit transaction of amount 0. -/
theorem c2_exactly_one_task_credit_witness :
    (alookup c2db.claims 1 = some c2claim ∧ c2claim.review_status ≠ ReviewStatus.approved ∧
     hasTaskCredit c2db c2claim.user 1 = false) ∧
    taskCreditsFor (approveN 2 c2db 1).txns c2claim.user 1 = [c2claim.payout_amount] :=
  ⟨⟨by decide, by decide, by decide⟩,
   c2_exactly_one_task_credit c2db 1 c2claim 1 (by decide) (by decide) (by decide)⟩

end YTB
